import Mathlib

/-!
# Verification of the vortex-math trading engine

Shallow embedding of the algorithmic core of the repository:

* `src/core/vortex-math.js` (source file `src/unnamed/part_007`): digital
  roots, vortex sequences, set-membership predicates;
* the strategy class (source file `src/unnamed/part_006`): signal
  generation, the backtest state machine, performance metrics;
* `src/data/data-processor.js`: series enrichment and validation.

JavaScript numbers are modelled by `ℚ` (all engine arithmetic is +, -, *,
/ on finite values); a division whose JS result would be non-finite
(`NaN`/`Infinity`, i.e. a zero denominator) is modelled by `jsDiv`
returning `none` at the one spot where a claim is about that behaviour
(the drawdown percentage).  Dates are opaque identifiers (`ℕ`), reasoning
strings are modelled by lists of `ReasonAtom` tags, one tag per distinct
string literal pushed by the source.  `Math.sqrt` appears only in the
Sharpe ratio; the metrics record therefore stores the (rational) variance
and the real-valued Sharpe ratio is derived from it separately.
-/

namespace VortexTrading

/-! ## Core: `vortex-math.js` -/

/-- Inner `while (n > 0) { sum += n % 10; n = Math.floor(n / 10) }` loop of
`digitalRootIterative`: the decimal digit sum. -/
def sumDigits : ℕ → ℕ
  | 0 => 0
  | n + 1 => (n + 1) % 10 + sumDigits ((n + 1) / 10)
decreasing_by exact Nat.div_lt_self (Nat.succ_pos n) (by norm_num)

theorem sumDigits_le (n : ℕ) : sumDigits n ≤ n := by
  induction n using Nat.strong_induction_on with
  | _ n ih =>
    match n with
    | 0 => simp [sumDigits]
    | m + 1 =>
      rw [sumDigits]
      have h1 : (m + 1) / 10 < m + 1 := Nat.div_lt_self (Nat.succ_pos m) (by norm_num)
      have h2 := ih ((m + 1) / 10) h1
      omega

theorem sumDigits_lt (n : ℕ) (h : 10 ≤ n) : sumDigits n < n := by
  match n, h with
  | m + 1, h =>
    rw [sumDigits]
    have h1 : (m + 1) / 10 < m + 1 := Nat.div_lt_self (Nat.succ_pos m) (by norm_num)
    have h2 := sumDigits_le ((m + 1) / 10)
    omega

/-- Outer `while (n >= 10) { n = sumDigits n }` loop of
`digitalRootIterative`. -/
def digitSumLoop (n : ℕ) : ℕ :=
  if h : n < 10 then n else digitSumLoop (sumDigits n)
decreasing_by exact sumDigits_lt n (le_of_not_lt h)

/-- Source `VortexMath.digitalRoot`: modular-arithmetic digital root.  The source
takes `Math.abs(n)`; the absolute value is `Int.natAbs`. -/
def digitalRoot (n : ℤ) : ℕ :=
  if n = 0 then 0 else if n.natAbs % 9 = 0 then 9 else n.natAbs % 9

/-- Source `VortexMath.digitalRootIterative`: iterative digit-sum-until-single-digit
digital root, with the source's final `n === 0 ? 9 : n` adjustment. -/
def digitalRootIterative (n : ℤ) : ℕ :=
  if n = 0 then 0
  else
    let r := digitSumLoop n.natAbs
    if r = 0 then 9 else r

/-- One step of `generateVortexSequence`'s loop body:
`current = (current * multiplier) % base; if (current === 0) current = base`. -/
def vortexStep (current multiplier base : ℕ) : ℕ :=
  let c := current * multiplier % base
  if c = 0 then base else c

/-- The `for (let i = 1; i < length; i++)` loop of `generateVortexSequence`,
including the `if (current === start && i > 1) break` placed after the push.
`remaining` is the number of iterations still to run, `length - i`, so the
recursion is structural; `i` is the source's loop counter. -/
def vortexLoop (start multiplier base : ℕ) : (current i remaining : ℕ) → List ℕ
  | _, _, 0 => []
  | current, i, remaining + 1 =>
    let c := vortexStep current multiplier base
    if c = start ∧ 1 < i then [c]
    else c :: vortexLoop start multiplier base c (i + 1) remaining

/-- Source `VortexMath.generateVortexSequence(start, multiplier, base, length)`. -/
def generateVortexSequence (start multiplier base length : ℕ) : List ℕ :=
  start :: vortexLoop start multiplier base start 1 (length - 1)

/-- Source `VortexMath.isInDoublingSequence`: membership in `[1, 2, 4, 8, 7, 5]`. -/
def isInDoublingSequence (digitalRoot : ℕ) : Bool :=
  [1, 2, 4, 8, 7, 5].contains digitalRoot

/-- Source `VortexMath.isTeslaNumber`: membership in `[3, 6, 9]`. -/
def isTeslaNumber (n : ℕ) : Bool :=
  [3, 6, 9].contains n

/-! ## Strategy: `VortexStrategy` (source file `src/unnamed/part_006`) -/

/-- The three signal actions `'BUY' | 'SELL' | 'HOLD'`. -/
inductive Action
  | BUY
  | SELL
  | HOLD
deriving DecidableEq, Repr

/-- One tag per distinct reasoning string literal pushed by the source.
Strings that interpolate a number carry it as an argument. -/
inductive ReasonAtom
  | notInDoublingSequence (digitalRoot : ℕ)
  | teslaBalance
  | teslaPositive
  | teslaNegative
  | vortexBuy (target : ℕ)
  | vortexSell (target : ℕ)
  | vortexHold (target : ℕ)
  | sequenceProgression
  | endOfBacktestPeriod
deriving DecidableEq, Repr

/-- Return value of `generateSignal`: the action plus the reasoning list
(the source joins it with '; ', or substitutes a default string when empty;
the list of atoms models the joined string). -/
structure Signal where
  action : Action
  reasoning : List ReasonAtom
deriving DecidableEq, Repr

/-- The strategy configuration of the `VortexStrategy` constructor.
`minimumHoldPeriod`, `stopLossPercent` and `takeProfitPercent` are stored
by the source but never read by the engine; they are kept for fidelity. -/
structure StrategyConfig where
  buySignal : ℕ
  sellSignal : ℕ
  holdSignal : ℕ
  useTeslaFilter : Bool
  useSequenceFilter : Bool
  minimumHoldPeriod : ℕ
  maxPositionSize : ℚ
  stopLossPercent : ℚ
  takeProfitPercent : ℚ
deriving DecidableEq, Repr

/-- The constructor defaults: buy 1, sell 5, hold 9, both filters on,
full allocation. -/
def defaultConfig : StrategyConfig :=
  { buySignal := 1, sellSignal := 5, holdSignal := 9,
    useTeslaFilter := true, useSequenceFilter := true,
    minimumHoldPeriod := 1, maxPositionSize := 1,
    stopLossPercent := 10, takeProfitPercent := 20 }

/-- One enriched daily record as consumed by `backtest` (`date`, `price`,
`digitalRoot` are the only fields the engine reads; dates are opaque
identifiers). -/
structure DataPoint where
  date : ℕ
  price : ℚ
  digitalRoot : ℕ
deriving DecidableEq, Repr

/-- Source `generateSignal(currentData, previousData)`: the doubling-sequence
exclusion gate, then the Tesla 3-6-9 override, then the configured
buy/sell/hold targets (with `action` initialised to `'HOLD'`); the final
pattern-analysis step only appends reasoning and never changes the action. -/
def generateSignal (cfg : StrategyConfig) (currentData : DataPoint)
    (previousData : Option DataPoint) : Signal :=
  let digitalRoot := currentData.digitalRoot
  if cfg.useSequenceFilter && !isInDoublingSequence digitalRoot then
    { action := .HOLD, reasoning := [.notInDoublingSequence digitalRoot] }
  else
    let base : Action × List ReasonAtom :=
      if cfg.useTeslaFilter && isTeslaNumber digitalRoot then
        if digitalRoot = 9 then (.HOLD, [.teslaBalance])
        else if digitalRoot = 3 then (.BUY, [.teslaPositive])
        else if digitalRoot = 6 then (.SELL, [.teslaNegative])
        else (.HOLD, [])
      else
        if digitalRoot = cfg.buySignal then (.BUY, [.vortexBuy cfg.buySignal])
        else if digitalRoot = cfg.sellSignal then (.SELL, [.vortexSell cfg.sellSignal])
        else if digitalRoot = cfg.holdSignal then (.HOLD, [.vortexHold cfg.holdSignal])
        else (.HOLD, [])
    let reasoning :=
      match previousData with
      | some prev =>
        if (generateVortexSequence prev.digitalRoot 2 9 3).get? 1 = some digitalRoot then
          base.2 ++ [.sequenceProgression]
        else base.2
      | none => base.2
    { action := base.1, reasoning := reasoning }

/-- An open position as built by `openPosition` (the constant
`action: 'BUY'` field is omitted; `size` is the allocation fraction
`config.maxPositionSize`). -/
structure Position where
  date : ℕ
  price : ℚ
  digitalRoot : ℕ
  capital : ℚ
  size : ℚ
deriving DecidableEq, Repr

/-- Source `openPosition(action, dataPoint, capital)`. -/
def openPosition (dataPoint : DataPoint) (capital : ℚ)
    (cfg : StrategyConfig) : Position :=
  { date := dataPoint.date, price := dataPoint.price,
    digitalRoot := dataPoint.digitalRoot, capital := capital,
    size := cfg.maxPositionSize }

/-- A completed trade as built by `closePosition` (`holdingPeriod`, which
parses date strings, is omitted: no claim mentions it). -/
structure Trade where
  entryDate : ℕ
  exitDate : ℕ
  entryPrice : ℚ
  exitPrice : ℚ
  entryDigitalRoot : ℕ
  exitDigitalRoot : ℕ
  profit : ℚ
  profitPercent : ℚ
  exitCapital : ℚ
deriving DecidableEq, Repr

/-- Source `closePosition(position, dataPoint)`. -/
def closePosition (position : Position) (dataPoint : DataPoint) : Trade :=
  { entryDate := position.date, exitDate := dataPoint.date,
    entryPrice := position.price, exitPrice := dataPoint.price,
    entryDigitalRoot := position.digitalRoot,
    exitDigitalRoot := dataPoint.digitalRoot,
    profit := (dataPoint.price - position.price) * position.size,
    profitPercent := (dataPoint.price - position.price) / position.price * 100,
    exitCapital := position.capital * (dataPoint.price / position.price) }

/-- JavaScript division: `none` models the non-finite result (`NaN` or
`±Infinity`) produced by a zero denominator. -/
def jsDiv (a b : ℚ) : Option ℚ :=
  if b = 0 then none else some (a / b)

/-- One element of `results.dailyPortfolio`; `isLong` models the
`'LONG' | 'CASH'` string, `drawdown` keeps the JS division semantics. -/
structure PortfolioPoint where
  date : ℕ
  price : ℚ
  digitalRoot : ℕ
  portfolioValue : ℚ
  capital : ℚ
  isLong : Bool
  drawdown : Option ℚ
deriving DecidableEq, Repr

/-- One element of `results.trades`: an `OPEN`/`BUY` entry or a
`CLOSE`/`SELL` entry. -/
inductive LedgerEntry
  | opened (date : ℕ) (price : ℚ) (digitalRoot : ℕ)
      (reasoning : List ReasonAtom) (capital : ℚ)
  | closed (date : ℕ) (price : ℚ) (digitalRoot : ℕ)
      (reasoning : List ReasonAtom) (entryPrice : ℚ) (entryDate : ℕ)
      (profit profitPercent capital : ℚ)
deriving DecidableEq, Repr

/-- The reasoning recorded on a ledger entry. -/
def LedgerEntry.reason : LedgerEntry → List ReasonAtom
  | .opened _ _ _ r _ => r
  | .closed _ _ _ r _ _ _ _ _ => r

/-- The mutable accumulator of the `backtest` loop. -/
structure BState where
  capital : ℚ
  position : Option Position
  maxCapital : ℚ
  trades : List LedgerEntry
  tradeHistory : List Trade
  dailyPortfolio : List PortfolioPoint
deriving DecidableEq, Repr

/-- The trade-execution part of one loop iteration: the
`if (signal.action === 'BUY' && !position) ... else if
(signal.action === 'SELL' && position) ...` block. -/
def tradePhase (cfg : StrategyConfig) (st : BState) (prev : Option DataPoint)
    (d : DataPoint) : BState :=
  let signal := generateSignal cfg d prev
  match signal.action, st.position with
  | .BUY, none =>
    { st with
      position := some (openPosition d st.capital cfg),
      trades := st.trades ++
        [.opened d.date d.price d.digitalRoot signal.reasoning st.capital] }
  | .SELL, some p =>
    let trade := closePosition p d
    { st with
      capital := trade.exitCapital,
      position := none,
      trades := st.trades ++
        [.closed d.date d.price d.digitalRoot signal.reasoning p.price p.date
          trade.profit trade.profitPercent trade.exitCapital],
      tradeHistory := st.tradeHistory ++ [trade] }
  | _, _ => st

/-- Source `portfolioValue`: `capital` when flat, marked to market when long. -/
def portfolioValueOf (st : BState) (d : DataPoint) : ℚ :=
  match st.position with
  | some p => st.capital * (d.price / p.price)
  | none => st.capital

/-- The equity-curve entry pushed for one record, from the post-trade
state `st1`: mark-to-market portfolio value, the updated running peak
`max(maxCapital, portfolioValue)`, and the drawdown percentage
`((maxCapital - portfolioValue) / maxCapital) * 100`. -/
def pointOf (st1 : BState) (d : DataPoint) : PortfolioPoint :=
  let pv := portfolioValueOf st1 d
  let m := max st1.maxCapital pv
  { date := d.date, price := d.price, digitalRoot := d.digitalRoot,
    portfolioValue := pv, capital := st1.capital,
    isLong := st1.position.isSome,
    drawdown := (jsDiv (m - pv) m).map (· * 100) }

/-- One full iteration of the `backtest` loop: trade execution, then the
unconditional equity-curve push with running-peak update and drawdown. -/
def stepB (cfg : StrategyConfig) (st : BState)
    (pd : Option DataPoint × DataPoint) : BState :=
  let st1 := tradePhase cfg st pd.1 pd.2
  { st1 with
    maxCapital := max st1.maxCapital (portfolioValueOf st1 pd.2),
    dailyPortfolio := st1.dailyPortfolio ++ [pointOf st1 pd.2] }

/-- Each record paired with its predecessor (`priceData[i - 1]`, `null`
for the first), as `generateSignal` receives them. -/
def pairedInputs (priceData : List DataPoint) : List (Option DataPoint × DataPoint) :=
  (none :: priceData.map some).zip priceData

/-- The accumulator at the top of the loop. -/
def initState (initialCapital : ℚ) : BState :=
  { capital := initialCapital, position := none, maxCapital := initialCapital,
    trades := [], tradeHistory := [], dailyPortfolio := [] }

/-- The accumulator after the whole `for` loop, before the terminal close. -/
def runBody (cfg : StrategyConfig) (priceData : List DataPoint)
    (initialCapital : ℚ) : BState :=
  (pairedInputs priceData).foldl (stepB cfg) (initState initialCapital)

/-- The accumulator after the first `i` loop iterations. -/
def stateAfter (cfg : StrategyConfig) (priceData : List DataPoint)
    (initialCapital : ℚ) (i : ℕ) : BState :=
  ((pairedInputs priceData).take i).foldl (stepB cfg) (initState initialCapital)

/-- The `// Close any remaining position` block: force-close at the last
record with the distinct `'End of backtest period'` reasoning. -/
def finishB (priceData : List DataPoint) (st : BState) : BState :=
  match st.position, priceData.getLast? with
  | some p, some lastDataPoint =>
    let trade := closePosition p lastDataPoint
    { st with
      capital := trade.exitCapital,
      position := none,
      trades := st.trades ++
        [.closed lastDataPoint.date lastDataPoint.price lastDataPoint.digitalRoot
          [.endOfBacktestPeriod] p.price p.date
          trade.profit trade.profitPercent trade.exitCapital],
      tradeHistory := st.tradeHistory ++ [trade] }
  | _, _ => st

/-! Performance metrics (`calculatePerformanceMetrics`).  The Sharpe ratio
is `returnStdDev > 0 ? (avgReturn / returnStdDev) * Math.sqrt(252) : 0`
with `returnStdDev = Math.sqrt(returnVariance)`; the record stores the
rational `avgDailyReturn` and `returnVariance`, and the real-valued
`sharpeRatio` is derived from them below.  `avgWin`, `avgLoss`,
`profitFactor` and `avgHoldingPeriod` are omitted: no claim mentions them. -/

/-- The day-over-day return series (`slice(1)` of the mapped array). -/
def dailyReturns (dailyPortfolio : List PortfolioPoint) : List ℚ :=
  (dailyPortfolio.zip (dailyPortfolio.drop 1)).map
    (fun x => (x.2.portfolioValue - x.1.portfolioValue) / x.1.portfolioValue)

/-- Performance metrics record. -/
structure Performance where
  totalReturn : Option ℚ
  totalTrades : ℕ
  winningTrades : ℕ
  losingTrades : ℕ
  winRate : ℚ
  maxDrawdown : ℚ
  avgDailyReturn : ℚ
  returnVariance : ℚ
deriving DecidableEq, Repr

/-- Source `calculatePerformanceMetrics(results, initialCapital, finalCapital)`
(over `this.tradeHistory` and `results.dailyPortfolio`). -/
def calculatePerformanceMetrics (tradeHistory : List Trade)
    (dailyPortfolio : List PortfolioPoint)
    (initialCapital finalCapital : ℚ) : Performance :=
  let returns := dailyReturns dailyPortfolio
  let avgReturn := if returns.length = 0 then 0 else returns.sum / returns.length
  let winning := (tradeHistory.filter (fun t => 0 < t.profit)).length
  { totalReturn := (jsDiv (finalCapital - initialCapital) initialCapital).map (· * 100),
    totalTrades := tradeHistory.length,
    winningTrades := winning,
    losingTrades := (tradeHistory.filter (fun t => t.profit < 0)).length,
    winRate := if tradeHistory.length = 0 then 0
      else ((winning : ℚ) / tradeHistory.length) * 100,
    maxDrawdown :=
      match dailyPortfolio.map (fun q => q.drawdown.getD 0) with
      | [] => 0
      | a :: rest => rest.foldl max a,
    avgDailyReturn := avgReturn,
    returnVariance := if returns.length = 0 then 0
      else (returns.map (fun r => (r - avgReturn) ^ 2)).sum / returns.length }

/-- Source `returnStdDev` and the annualised Sharpe ratio
(`Math.sqrt` forces this single derived value into `ℝ`). -/
noncomputable def sharpeRatio (perf : Performance) : ℝ :=
  if Real.sqrt (perf.returnVariance : ℝ) > 0 then
    ((perf.avgDailyReturn : ℝ) / Real.sqrt (perf.returnVariance : ℝ)) * Real.sqrt 252
  else 0

/-- The object returned by `backtest` (the per-record `signals` array,
which no claim mentions, is omitted; `tradeHistory` is the instance field
the metrics are computed from). -/
structure BacktestResult where
  trades : List LedgerEntry
  dailyPortfolio : List PortfolioPoint
  tradeHistory : List Trade
  performance : Performance
  finalCapital : ℚ
  totalReturn : Option ℚ
deriving DecidableEq, Repr

/-- Source `backtest(priceData, initialCapital)`. -/
def backtest (cfg : StrategyConfig) (priceData : List DataPoint)
    (initialCapital : ℚ) : BacktestResult :=
  let st := finishB priceData (runBody cfg priceData initialCapital)
  { trades := st.trades,
    dailyPortfolio := st.dailyPortfolio,
    tradeHistory := st.tradeHistory,
    performance := calculatePerformanceMetrics st.tradeHistory st.dailyPortfolio
      initialCapital st.capital,
    finalCapital := st.capital,
    totalReturn := (jsDiv (st.capital - initialCapital) initialCapital).map (· * 100) }

/-! ## Enrichment: `src/data/data-processor.js`

Input is the raw `[timestampMillis, price]` array, typed here as
`List (ℤ × ℚ)`.  The source's only `throw` (`'Invalid data format:
prices array not found'`) corresponds to an input that is not an array,
which the type rules out, so the `Except` error channel is present but
never used — which is exactly what the non-monotonic-timestamp claim is
about.  The statistics object is embedded only as far as `validateData`
reads it (the digital-root frequency table). -/

/-- Source `Math.round`: round half toward positive infinity. -/
def jsRound (q : ℚ) : ℤ := ⌊q + 1 / 2⌋

/-- Source `DataProcessor.getSequencePosition`: `indexOf` in the doubling
sequence, `-1` when absent. -/
def getSequencePosition (digitalRoot : ℕ) : ℤ :=
  match [1, 2, 4, 8, 7, 5].findIdx? (fun x => x == digitalRoot) with
  | some i => (i : ℤ)
  | none => -1

/-- One element of `processedData.dailyData` (the `date` string is derived
from the timestamp and carries no extra information, so only the
timestamp is kept). -/
structure ProcessedPoint where
  timestamp : ℤ
  price : ℚ
  priceRounded : ℤ
  digitalRoot : ℕ
  vortexSequencePosition : ℤ
  isDoublingSequence : Bool
  isTeslaNumber : Bool
  priceChange : ℚ
  priceChangePercent : ℚ
deriving DecidableEq, Repr

/-- The errors `processRawData` can throw.  The only `throw` in the source
guards against a missing or non-array `prices` field, which the typed
input rules out; there is no timestamp-related error at all. -/
inductive ProcessError
  | invalidDataFormat
deriving DecidableEq, Repr

/-- Enrichment of one raw record, given its predecessor. -/
def enrichPoint (prev : Option (ℤ × ℚ)) (cur : ℤ × ℚ) : ProcessedPoint :=
  let digitalRoot := digitalRoot (jsRound cur.2)
  { timestamp := cur.1, price := cur.2,
    priceRounded := jsRound cur.2,
    digitalRoot := digitalRoot,
    vortexSequencePosition := getSequencePosition digitalRoot,
    isDoublingSequence := isInDoublingSequence digitalRoot,
    isTeslaNumber := isTeslaNumber digitalRoot,
    priceChange := match prev with
      | some pr => cur.2 - pr.2
      | none => 0,
    priceChangePercent := match prev with
      | some pr => (cur.2 - pr.2) / pr.2 * 100
      | none => 0 }

/-- The enriched series: one record per input price point, each enriched
with its predecessor's price for the delta fields. -/
def dailyOf (prices : List (ℤ × ℚ)) : List ProcessedPoint :=
  ((none :: prices.map some).zip prices).map (fun pd => enrichPoint pd.1 pd.2)

/-- The digital-root frequency table of `calculateStatistics`
(counts for roots 1 through 9). -/
def rootFrequency (dailyData : List ProcessedPoint) : List (ℕ × ℕ) :=
  (List.range 9).map
    (fun i => (i + 1, (dailyData.filter (fun d0 => d0.digitalRoot = i + 1)).length))

/-- Source `processedData` as far as `validateData` reads it. -/
structure ProcessedData where
  totalRecords : ℕ
  dailyData : List ProcessedPoint
  frequencies : List (ℕ × ℕ)
deriving DecidableEq, Repr

/-- Source `DataProcessor.processRawData(rawData)`. -/
def processRawData (prices : List (ℤ × ℚ)) : Except ProcessError ProcessedData :=
  .ok { totalRecords := prices.length,
        dailyData := dailyOf prices,
        frequencies := rootFrequency (dailyOf prices) }

/-- The single error message `validateData` can produce. -/
inductive DataError
  | noDailyDataFound
deriving DecidableEq, Repr

/-- The warning messages `validateData` can produce, one constructor per
template string. -/
inductive DataWarning
  | dataGap (daysDiff : ℚ)
  | largePriceChanges (count : ℕ)
  | unevenDistribution (roots : List ℕ)
deriving DecidableEq, Repr

/-- Return value of `validateData`. -/
structure ValidationResult where
  valid : Bool
  errors : List DataError
  warnings : List DataWarning
deriving DecidableEq, Repr

/-- Source `DataProcessor.validateData(processedData)`: an error only for empty
data; gaps, large price changes and uneven digital-root distribution are
warnings and never affect `valid`. -/
def validateData (pd : ProcessedData) : ValidationResult :=
  if pd.dailyData.length = 0 then
    { valid := false, errors := [.noDailyDataFound], warnings := [] }
  else
    let gapWarnings := (pd.dailyData.zip (pd.dailyData.drop 1)).filterMap
      (fun x =>
        let daysDiff : ℚ := ((x.2.timestamp - x.1.timestamp : ℤ) : ℚ) / 86400000
        if 1.5 < daysDiff then some (DataWarning.dataGap daysDiff) else none)
    let largeChanges :=
      (pd.dailyData.filter (fun d0 => 50 < |d0.priceChangePercent|)).length
    let changeWarnings :=
      if 0 < largeChanges then [DataWarning.largePriceChanges largeChanges] else []
    let expectedCount : ℚ := (pd.dailyData.length : ℚ) / 9
    let deviations := pd.frequencies.filter
      (fun fc => expectedCount * 0.5 < |(fc.2 : ℚ) - expectedCount|)
    let devWarnings :=
      if deviations.length ≠ 0 then
        [DataWarning.unevenDistribution (deviations.map (fun fc => fc.1))]
      else []
    { valid := true, errors := [],
      warnings := gapWarnings ++ changeWarnings ++ devWarnings }

/-! Auxiliary definitions for stating theorems about the backtest loop. -/

/-- The predecessor record passed to `generateSignal`
(`i > 0 ? priceData[i - 1] : null`). -/
def prevRecord (priceData : List DataPoint) : ℕ → Option DataPoint
  | 0 => none
  | j + 1 => priceData.get? j

/-- The filters-off, plain-targets configuration used by several concrete
runs below (buy 1, sell 5, hold 9, full allocation). -/
def plainTargetsConfig : StrategyConfig :=
  { defaultConfig with useTeslaFilter := false, useSequenceFilter := false }

/-! Definitions used by the reconciliation and size-invariance theorems. -/

/-- The product of `exitPrice / entryPrice` over a trade ledger. -/
def ratioProd (th : List Trade) : ℚ :=
  (th.map (fun t => t.exitPrice / t.entryPrice)).prod

/-- The running peak of the claim: the monotonically non-decreasing
running maximum of recorded portfolio values, seeded at the initial
capital (`foldl max` over the equity-curve prefix up to day `i`). -/
def runningPeak (cfg : StrategyConfig) (l : List DataPoint) (init : ℚ) (i : ℕ) : ℚ :=
  (((backtest cfg l init).dailyPortfolio.map
    (fun q => q.portfolioValue)).take (i + 1)).foldl max init



/-- Relation between the trades of two runs that differ only in the
allocation fraction: every field agrees except the absolute `profit`,
which is the shared price move scaled by the respective fraction. -/
def TradeRel (s₁ s₂ : ℚ) (t₁ t₂ : Trade) : Prop :=
  t₁.entryDate = t₂.entryDate ∧ t₁.exitDate = t₂.exitDate ∧
  t₁.entryPrice = t₂.entryPrice ∧ t₁.exitPrice = t₂.exitPrice ∧
  t₁.entryDigitalRoot = t₂.entryDigitalRoot ∧
  t₁.exitDigitalRoot = t₂.exitDigitalRoot ∧
  t₁.profitPercent = t₂.profitPercent ∧ t₁.exitCapital = t₂.exitCapital ∧
  t₁.profit = (t₁.exitPrice - t₁.entryPrice) * s₁ ∧
  t₂.profit = (t₂.exitPrice - t₂.entryPrice) * s₂

/-- Relation between the open positions of the two runs: equal except for
the stored allocation size. -/
def PosRel (s₁ s₂ : ℚ) : Option Position → Option Position → Prop
  | none, none => True
  | some p₁, some p₂ =>
      p₁.date = p₂.date ∧ p₁.price = p₂.price ∧
      p₁.digitalRoot = p₂.digitalRoot ∧ p₁.capital = p₂.capital ∧
      p₁.size = s₁ ∧ p₂.size = s₂
  | _, _ => False

/-- Relation between the loop states of the two runs: capital, running
peak and equity curve identical; positions and trade histories identical
up to the stored size / scaled profit. -/
def StRel (s₁ s₂ : ℚ) (st₁ st₂ : BState) : Prop :=
  st₁.capital = st₂.capital ∧ st₁.maxCapital = st₂.maxCapital ∧
  st₁.dailyPortfolio = st₂.dailyPortfolio ∧
  PosRel s₁ s₂ st₁.position st₂.position ∧
  List.Forall₂ (TradeRel s₁ s₂) st₁.tradeHistory st₂.tradeHistory

/-! ## Theorems -/

theorem sumDigits_mod_nine (n : ℕ) : sumDigits n % 9 = n % 9 := by
  induction n using Nat.strong_induction_on with
  | _ n ih =>
    match n with
    | 0 => simp [sumDigits]
    | m + 1 =>
      rw [sumDigits]
      have h1 : (m + 1) / 10 < m + 1 := Nat.div_lt_self (Nat.succ_pos m) (by norm_num)
      have h2 := ih ((m + 1) / 10) h1
      omega

theorem sumDigits_pos (n : ℕ) (h : 0 < n) : 0 < sumDigits n := by
  induction n using Nat.strong_induction_on with
  | _ n ih =>
    match n with
    | m + 1 =>
      rw [sumDigits]
      by_cases h10 : (m + 1) % 10 = 0
      · have h1 : (m + 1) / 10 < m + 1 := Nat.div_lt_self (Nat.succ_pos m) (by norm_num)
        have hq : 0 < (m + 1) / 10 := by omega
        have := ih ((m + 1) / 10) h1 hq
        omega
      · omega

theorem digitSumLoop_lt_ten (n : ℕ) : digitSumLoop n < 10 := by
  induction n using Nat.strong_induction_on with
  | _ n ih =>
    rw [digitSumLoop]
    by_cases h : n < 10
    · simpa [h] using h
    · simpa [h] using ih (sumDigits n) (sumDigits_lt n (le_of_not_lt h))

theorem digitSumLoop_mod_nine (n : ℕ) : digitSumLoop n % 9 = n % 9 := by
  induction n using Nat.strong_induction_on with
  | _ n ih =>
    rw [digitSumLoop]
    by_cases h : n < 10
    · simp [h]
    · have := ih (sumDigits n) (sumDigits_lt n (le_of_not_lt h))
      simp [h, this, sumDigits_mod_nine]

theorem digitSumLoop_pos (n : ℕ) (h : 0 < n) : 0 < digitSumLoop n := by
  induction n using Nat.strong_induction_on with
  | _ n ih =>
    rw [digitSumLoop]
    by_cases h10 : n < 10
    · simpa [h10] using h
    · simpa [h10] using
        ih (sumDigits n) (sumDigits_lt n (le_of_not_lt h10)) (sumDigits_pos n h)

theorem vortexLoop_length_le (s m b : ℕ) :
    ∀ remaining current i, (vortexLoop s m b current i remaining).length ≤ remaining := by
  intro remaining
  induction remaining with
  | zero => intro current i; simp [vortexLoop]
  | succ r ih =>
    intro current i
    simp only [vortexLoop]
    by_cases hb : vortexStep current m b = s ∧ 1 < i
    · rw [if_pos hb]
      simp only [List.length_singleton]
      omega
    · rw [if_neg hb]
      simp only [List.length_cons]
      have := ih (vortexStep current m b) (i + 1)
      omega

/-- Any element of the loop output that equals `start` and sits at a loop
counter larger than 1 is the final element: the `i > 1` break fires there. -/
theorem vortexLoop_start_last (s m b : ℕ) :
    ∀ remaining current i t,
      (vortexLoop s m b current i remaining).get? t = some s →
        i + t ≤ 1 ∨ t = (vortexLoop s m b current i remaining).length - 1 := by
  intro remaining
  induction remaining with
  | zero =>
    intro current i t ht
    simp [vortexLoop] at ht
  | succ r ih =>
    intro current i t ht
    simp only [vortexLoop] at ht ⊢
    by_cases hb : vortexStep current m b = s ∧ 1 < i
    · rw [if_pos hb] at ht ⊢
      match t with
      | 0 => right; simp
      | t + 1 => simp at ht
    · rw [if_neg hb] at ht ⊢
      match t with
      | 0 =>
        left
        simp only [List.get?_cons_zero, Option.some_inj] at ht
        have h2 : ¬ 1 < i := fun hgt => hb ⟨ht, hgt⟩
        omega
      | t + 1 =>
        simp only [List.get?_cons_succ] at ht
        obtain ⟨hlt, -⟩ := List.get?_eq_some.mp ht
        rcases ih (vortexStep current m b) (i + 1) t ht with h1 | h1
        · left; omega
        · right
          simp only [List.length_cons]
          omega

/-- Every element of the loop output is obtained from its predecessor (or
from the entry `current` for the head) by one `vortexStep`. -/
theorem vortexLoop_chain (s m b : ℕ) :
    ∀ remaining current i,
      (∀ v, (vortexLoop s m b current i remaining).get? 0 = some v →
        v = vortexStep current m b) ∧
      (∀ t v w, (vortexLoop s m b current i remaining).get? t = some v →
        (vortexLoop s m b current i remaining).get? (t + 1) = some w →
        w = vortexStep v m b) := by
  intro remaining
  induction remaining with
  | zero =>
    intro current i
    constructor
    · intro v hv
      simp [vortexLoop] at hv
    · intro t v w hv hw
      simp [vortexLoop] at hv
  | succ r ih =>
    intro current i
    constructor
    · intro v hv
      simp only [vortexLoop] at hv
      by_cases hb : vortexStep current m b = s ∧ 1 < i
      · rw [if_pos hb] at hv
        simpa using hv.symm
      · rw [if_neg hb] at hv
        simpa using hv.symm
    · intro t v w hv hw
      simp only [vortexLoop] at hv hw
      by_cases hb : vortexStep current m b = s ∧ 1 < i
      · rw [if_pos hb] at hv hw
        match t with
        | 0 => simp at hw
        | t + 1 => simp at hv
      · rw [if_neg hb] at hv hw
        have hrec := ih (vortexStep current m b) (i + 1)
        match t with
        | 0 =>
          simp only [List.get?_cons_zero, Option.some_inj] at hv
          simp only [List.get?_cons_succ] at hw
          rw [← hv]
          exact hrec.1 w hw
        | t + 1 =>
          simp only [List.get?_cons_succ] at hv hw
          exact hrec.2 t v w hv hw

/-! ## Claim C3: modular digital root equals iterative digital root -/

/-- Claim C3.  For every integer `n ≥ 0`, the modular `digitalRoot`
(returning 0 for `n = 0`, 9 for positive multiples of 9, otherwise
`n mod 9`) equals the iterative digit-sum-until-single-digit
`digitalRootIterative n`. -/
theorem digitalRoot_eq_digitalRootIterative (n : ℤ) (hn : 0 ≤ n) :
    digitalRoot n = digitalRootIterative n := by
  clear hn
  unfold digitalRoot digitalRootIterative
  by_cases h0 : n = 0
  · simp [h0]
  · have hpos : 0 < n.natAbs := Int.natAbs_pos.mpr h0
    have h1 : digitSumLoop n.natAbs < 10 := digitSumLoop_lt_ten n.natAbs
    have h2 : digitSumLoop n.natAbs % 9 = n.natAbs % 9 := digitSumLoop_mod_nine n.natAbs
    have h3 : 0 < digitSumLoop n.natAbs := digitSumLoop_pos n.natAbs hpos
    simp only [h0, if_false]
    split_ifs <;> omega

/-- Witness for C3 at `n = 12345`. -/
theorem digitalRoot_eq_digitalRootIterative_witness :
    (0 : ℤ) ≤ 12345 ∧ digitalRoot 12345 = digitalRootIterative 12345 :=
  ⟨by norm_num, digitalRoot_eq_digitalRootIterative 12345 (by norm_num)⟩

/-! ## Claim C6: the vortex sequence generator -/

/-- Claim C6 counterexample.  As universally stated the claim fails:
with `maxLength = 0` the returned sequence has length 1 (`sequence`
is seeded with `start` before the loop), exceeding `maxLength`; and
with `multiplier = 1` the sequence is `[1, 1, 1]`, so the first return
of `current` to `start` (index 1) does **not** close the cycle — the
`i > 1` guard skips the break on the first loop iteration. -/
theorem generateVortexSequence_counterexample :
    ¬ ((generateVortexSequence 1 2 9 0).length ≤ 0) ∧
    generateVortexSequence 1 1 9 5 = [1, 1, 1] ∧
    (generateVortexSequence 1 1 9 5).get? 1 = some 1 ∧
    (generateVortexSequence 1 1 9 5).length - 1 = 2 := by decide

/-- Claim C6 amended.  For `maxLength ≥ 1`: the sequence starts with
`start`, every later element is `(prev * multiplier) % base` with 0
mapped to `base`, the length never exceeds `maxLength`, and once
`current` returns to `start` at index ≥ 2 that element is the last one
emitted; `generateSequence(1, 2, 9, 20) = [1, 2, 4, 8, 7, 5, 1]`. -/
theorem generateVortexSequence_spec (start multiplier base length : ℕ)
    (hlen : 1 ≤ length) :
    (generateVortexSequence start multiplier base length).length ≤ length ∧
    (generateVortexSequence start multiplier base length).get? 0 = some start ∧
    (∀ j v w, (generateVortexSequence start multiplier base length).get? j = some v →
      (generateVortexSequence start multiplier base length).get? (j + 1) = some w →
      w = vortexStep v multiplier base) ∧
    (∀ j, 2 ≤ j →
      (generateVortexSequence start multiplier base length).get? j = some start →
      j = (generateVortexSequence start multiplier base length).length - 1) ∧
    generateVortexSequence 1 2 9 20 = [1, 2, 4, 8, 7, 5, 1] := by
  refine ⟨?_, rfl, ?_, ?_, by decide⟩
  · have h := vortexLoop_length_le start multiplier base (length - 1) start 1
    simp only [generateVortexSequence, List.length_cons]
    omega
  · intro j v w hv hw
    match j with
    | 0 =>
      simp only [generateVortexSequence, List.get?_cons_zero, Option.some_inj] at hv
      simp only [generateVortexSequence, List.get?_cons_succ] at hw
      rw [← hv]
      exact (vortexLoop_chain start multiplier base (length - 1) start 1).1 w hw
    | j + 1 =>
      simp only [generateVortexSequence, List.get?_cons_succ] at hv hw
      exact (vortexLoop_chain start multiplier base (length - 1) start 1).2 j v w hv hw
  · intro j hj hval
    match j, hj with
    | t + 1, hj =>
      simp only [generateVortexSequence, List.get?_cons_succ] at hval
      obtain ⟨hlt, -⟩ := List.get?_eq_some.mp hval
      rcases vortexLoop_start_last start multiplier base (length - 1) start 1 t hval
        with h | h
      · omega
      · simp only [generateVortexSequence, List.length_cons]
        omega

/-- Witness for the amended C6 at `(1, 2, 9, 20)`. -/
theorem generateVortexSequence_spec_witness :
    (generateVortexSequence 1 2 9 20).length ≤ 20 :=
  (generateVortexSequence_spec 1 2 9 20 (by norm_num)).1

/-! ## Claim C1: signal-policy precedence -/

/-- Claim C1.  The signal rules are evaluated in a fixed precedence order:
(1) with the sequence filter enabled, a digital root outside
`{1, 2, 4, 8, 7, 5}` yields `HOLD` and nothing else is evaluated;
(2) otherwise, with the Tesla (pattern-number) filter enabled, a root in
`{3, 6, 9}` yields `BUY`/`SELL`/`HOLD` for 3/6/9 regardless of the
configured targets; in particular (3) with both filters enabled a root
of 3 yields `HOLD`, not `BUY`. -/
theorem generateSignal_precedence (cfg : StrategyConfig) (d : DataPoint)
    (prev : Option DataPoint) :
    (cfg.useSequenceFilter = true → isInDoublingSequence d.digitalRoot = false →
      (generateSignal cfg d prev).action = .HOLD) ∧
    ((cfg.useSequenceFilter = false ∨ isInDoublingSequence d.digitalRoot = true) →
      cfg.useTeslaFilter = true → isTeslaNumber d.digitalRoot = true →
      (generateSignal cfg d prev).action =
        (if d.digitalRoot = 9 then .HOLD
         else if d.digitalRoot = 3 then .BUY else .SELL)) ∧
    (cfg.useSequenceFilter = true → cfg.useTeslaFilter = true →
      d.digitalRoot = 3 → (generateSignal cfg d prev).action = .HOLD) := by
  refine ⟨?_, ?_, ?_⟩
  · intro hs hd
    simp [generateSignal, hs, hd]
  · intro hgate ht htn
    have hcond : (cfg.useSequenceFilter && !isInDoublingSequence d.digitalRoot) = false := by
      rcases hgate with h | h <;> simp [h]
    have htn2 : d.digitalRoot = 3 ∨ d.digitalRoot = 6 ∨ d.digitalRoot = 9 := by
      simpa [isTeslaNumber] using htn
    simp only [generateSignal, hcond, Bool.false_eq_true, if_false, ht, htn,
      Bool.and_self, if_true]
    rcases htn2 with h | h | h <;> simp [h]
  · intro hs ht h3
    simp [generateSignal, hs, h3, isInDoublingSequence]

/-- Witness for C1: both filters on (the defaults), digital root 3. -/
theorem generateSignal_precedence_witness :
    (generateSignal defaultConfig ⟨0, 5, 3⟩ none).action = .HOLD :=
  (generateSignal_precedence defaultConfig ⟨0, 5, 3⟩ none).2.2 rfl rfl rfl

/-! ## Claim C10: precedence among the configured targets -/

/-- Claim C10.  When the base target rule applies (sequence filter passed or
disabled, Tesla override not applied), the buy target is checked before
the sell target and the sell target before the hold target: a digital
root equal to both the buy and sell targets emits `BUY`. -/
theorem generateSignal_target_precedence (cfg : StrategyConfig) (d : DataPoint)
    (prev : Option DataPoint)
    (hseq : cfg.useSequenceFilter = false ∨ isInDoublingSequence d.digitalRoot = true)
    (htes : cfg.useTeslaFilter = false ∨ isTeslaNumber d.digitalRoot = false) :
    (d.digitalRoot = cfg.buySignal → (generateSignal cfg d prev).action = .BUY) ∧
    (d.digitalRoot ≠ cfg.buySignal → d.digitalRoot = cfg.sellSignal →
      (generateSignal cfg d prev).action = .SELL) ∧
    (d.digitalRoot ≠ cfg.buySignal → d.digitalRoot ≠ cfg.sellSignal →
      d.digitalRoot = cfg.holdSignal → (generateSignal cfg d prev).action = .HOLD) := by
  refine ⟨?_, ?_, ?_⟩
  · intro hb
    rcases hseq with h1 | h1 <;> rcases htes with h2 | h2 <;>
      [skip; skip; skip; skip] <;>
      (simp [generateSignal, h1, h2]; simp [hb])
  · intro hb hsell
    rcases hseq with h1 | h1 <;> rcases htes with h2 | h2 <;>
      [skip; skip; skip; skip] <;>
      (simp [generateSignal, h1, h2]; simp [hb, hsell, hsell ▸ hb])
  · intro hb hsell hhold
    rcases hseq with h1 | h1 <;> rcases htes with h2 | h2 <;>
      [skip; skip; skip; skip] <;>
      (simp [generateSignal, h1, h2]; simp [hb, hsell, hhold, hhold ▸ hb, hhold ▸ hsell])

/-- Witness for C10: buy and sell targets both 2, digital root 2, Tesla
filter off — the signal is `BUY`. -/
theorem generateSignal_target_precedence_witness :
    (generateSignal
      { defaultConfig with buySignal := 2, sellSignal := 2, useTeslaFilter := false }
      ⟨0, 5, 2⟩ none).action = .BUY :=
  (generateSignal_target_precedence
    { defaultConfig with buySignal := 2, sellSignal := 2, useTeslaFilter := false }
    ⟨0, 5, 2⟩ none (Or.inr rfl) (Or.inl rfl)).1 rfl

theorem pairedInputs_length (l : List DataPoint) :
    (pairedInputs l).length = l.length := by
  simp [pairedInputs]

theorem pairedInputs_get? (l : List DataPoint) (i : ℕ) (h : i < l.length) :
    (pairedInputs l).get? i = some (prevRecord l i, l.get ⟨i, h⟩) := by
  rw [pairedInputs, List.get?_zip_eq_some]
  refine ⟨?_, by simp [List.get?_eq_get h]⟩
  match i with
  | 0 => rfl
  | j + 1 =>
    have hj : j < l.length := by omega
    rw [List.get?_cons_succ, List.get?_map, List.get?_eq_get hj]
    simp [prevRecord, List.get?_eq_get hj]

theorem foldl_take_succ {α β : Type} (f : β → α → β) (b : β) (l : List α)
    (i : ℕ) (h : i < l.length) :
    (l.take (i + 1)).foldl f b = f ((l.take i).foldl f b) (l.get ⟨i, h⟩) := by
  rw [List.take_succ, List.foldl_append, List.getElem?_eq_getElem h]
  simp [List.get_eq_getElem]

theorem stateAfter_zero (cfg : StrategyConfig) (l : List DataPoint) (init : ℚ) :
    stateAfter cfg l init 0 = initState init := rfl

theorem stateAfter_succ (cfg : StrategyConfig) (l : List DataPoint) (init : ℚ)
    (i : ℕ) (h : i < l.length) :
    stateAfter cfg l init (i + 1) =
      stepB cfg (stateAfter cfg l init i) (prevRecord l i, l.get ⟨i, h⟩) := by
  have h2 : i < (pairedInputs l).length := by rw [pairedInputs_length]; exact h
  rw [stateAfter, stateAfter, foldl_take_succ _ _ _ i h2]
  have h3 := pairedInputs_get? l i h
  rw [List.get?_eq_get h2] at h3
  rw [Option.some_inj.mp h3]

theorem runBody_eq (cfg : StrategyConfig) (l : List DataPoint) (init : ℚ) :
    runBody cfg l init = stateAfter cfg l init l.length := by
  rw [runBody, stateAfter, ← pairedInputs_length l, List.take_length]

theorem stepB_position (cfg : StrategyConfig) (st : BState)
    (pd : Option DataPoint × DataPoint) :
    (stepB cfg st pd).position = (tradePhase cfg st pd.1 pd.2).position := rfl

theorem stepB_capital (cfg : StrategyConfig) (st : BState)
    (pd : Option DataPoint × DataPoint) :
    (stepB cfg st pd).capital = (tradePhase cfg st pd.1 pd.2).capital := rfl

theorem stepB_trades (cfg : StrategyConfig) (st : BState)
    (pd : Option DataPoint × DataPoint) :
    (stepB cfg st pd).trades = (tradePhase cfg st pd.1 pd.2).trades := rfl

theorem stepB_tradeHistory (cfg : StrategyConfig) (st : BState)
    (pd : Option DataPoint × DataPoint) :
    (stepB cfg st pd).tradeHistory = (tradePhase cfg st pd.1 pd.2).tradeHistory := rfl

theorem tradePhase_buy_flat (cfg : StrategyConfig) (st : BState)
    (prev : Option DataPoint) (d : DataPoint)
    (h : (generateSignal cfg d prev).action = .BUY) (hp : st.position = none) :
    tradePhase cfg st prev d =
      { st with
        position := some (openPosition d st.capital cfg),
        trades := st.trades ++ [.opened d.date d.price d.digitalRoot
          (generateSignal cfg d prev).reasoning st.capital] } := by
  simp only [tradePhase]
  rw [h, hp]

theorem tradePhase_buy_long (cfg : StrategyConfig) (st : BState)
    (prev : Option DataPoint) (d : DataPoint) (p : Position)
    (h : (generateSignal cfg d prev).action = .BUY) (hp : st.position = some p) :
    tradePhase cfg st prev d = st := by
  simp only [tradePhase]
  rw [h, hp]

theorem tradePhase_sell_long (cfg : StrategyConfig) (st : BState)
    (prev : Option DataPoint) (d : DataPoint) (p : Position)
    (h : (generateSignal cfg d prev).action = .SELL) (hp : st.position = some p) :
    tradePhase cfg st prev d =
      { st with
        capital := (closePosition p d).exitCapital,
        position := none,
        trades := st.trades ++ [.closed d.date d.price d.digitalRoot
          (generateSignal cfg d prev).reasoning p.price p.date
          (closePosition p d).profit (closePosition p d).profitPercent
          (closePosition p d).exitCapital],
        tradeHistory := st.tradeHistory ++ [closePosition p d] } := by
  simp only [tradePhase]
  rw [h, hp]

theorem tradePhase_sell_flat (cfg : StrategyConfig) (st : BState)
    (prev : Option DataPoint) (d : DataPoint)
    (h : (generateSignal cfg d prev).action = .SELL) (hp : st.position = none) :
    tradePhase cfg st prev d = st := by
  simp only [tradePhase]
  rw [h, hp]

theorem tradePhase_hold (cfg : StrategyConfig) (st : BState)
    (prev : Option DataPoint) (d : DataPoint)
    (h : (generateSignal cfg d prev).action = .HOLD) :
    tradePhase cfg st prev d = st := by
  simp only [tradePhase]
  rw [h]

theorem stepB_posCapInv (cfg : StrategyConfig) (st : BState)
    (pd : Option DataPoint × DataPoint)
    (hinv : ∀ p, st.position = some p → p.capital = st.capital) :
    ∀ p, (stepB cfg st pd).position = some p →
      p.capital = (stepB cfg st pd).capital := by
  intro p hp
  rw [stepB_position] at hp
  rw [stepB_capital]
  rcases ha : (generateSignal cfg pd.2 pd.1).action with _ | _ | _ <;>
    rcases hpos : st.position with _ | q
  · rw [tradePhase_buy_flat cfg st pd.1 pd.2 ha hpos] at hp ⊢
    simp only [Option.some_inj] at hp
    rw [← hp]
    rfl
  · rw [tradePhase_buy_long cfg st pd.1 pd.2 q ha hpos] at hp ⊢
    exact hinv p hp
  · rw [tradePhase_sell_flat cfg st pd.1 pd.2 ha hpos] at hp ⊢
    exact hinv p hp
  · rw [tradePhase_sell_long cfg st pd.1 pd.2 q ha hpos] at hp
    simp at hp
  · rw [tradePhase_hold cfg st pd.1 pd.2 ha] at hp ⊢
    exact hinv p hp
  · rw [tradePhase_hold cfg st pd.1 pd.2 ha] at hp ⊢
    exact hinv p hp

theorem foldl_posCapInv (cfg : StrategyConfig) :
    ∀ (lp : List (Option DataPoint × DataPoint)) (st : BState),
      (∀ p, st.position = some p → p.capital = st.capital) →
      ∀ p, (lp.foldl (stepB cfg) st).position = some p →
        p.capital = (lp.foldl (stepB cfg) st).capital := by
  intro lp
  induction lp with
  | nil => intro st h; simpa using h
  | cons x xs ih =>
    intro st h
    simp only [List.foldl_cons]
    exact ih (stepB cfg st x) (stepB_posCapInv cfg st x h)

theorem stateAfter_posCapInv (cfg : StrategyConfig) (l : List DataPoint)
    (init : ℚ) (i : ℕ) :
    ∀ p, (stateAfter cfg l init i).position = some p →
      p.capital = (stateAfter cfg l init i).capital := by
  apply foldl_posCapInv
  intro p hp
  simp [initState] at hp

/-- Helper: `generateSignal` never produces the `'End of backtest period'`
reasoning: that string appears only in the terminal force-close. -/
theorem endOfBacktestPeriod_not_in_signal (cfg : StrategyConfig) (d : DataPoint)
    (prev : Option DataPoint) :
    ReasonAtom.endOfBacktestPeriod ∉ (generateSignal cfg d prev).reasoning := by
  rcases prev with _ | pr <;>
    simp only [generateSignal] <;> split_ifs <;> simp_all

theorem stepB_trades_reason (cfg : StrategyConfig) (st : BState)
    (pd : Option DataPoint × DataPoint)
    (h : ∀ e ∈ st.trades, ReasonAtom.endOfBacktestPeriod ∉ e.reason) :
    ∀ e ∈ (stepB cfg st pd).trades, ReasonAtom.endOfBacktestPeriod ∉ e.reason := by
  intro e he
  rw [stepB_trades] at he
  rcases ha : (generateSignal cfg pd.2 pd.1).action with _ | _ | _ <;>
    rcases hpos : st.position with _ | q
  · rw [tradePhase_buy_flat cfg st pd.1 pd.2 ha hpos] at he
    simp only [List.mem_append, List.mem_singleton] at he
    rcases he with he | he
    · exact h e he
    · rw [he]
      exact endOfBacktestPeriod_not_in_signal cfg pd.2 pd.1
  · rw [tradePhase_buy_long cfg st pd.1 pd.2 q ha hpos] at he
    exact h e he
  · rw [tradePhase_sell_flat cfg st pd.1 pd.2 ha hpos] at he
    exact h e he
  · rw [tradePhase_sell_long cfg st pd.1 pd.2 q ha hpos] at he
    simp only [List.mem_append, List.mem_singleton] at he
    rcases he with he | he
    · exact h e he
    · rw [he]
      exact endOfBacktestPeriod_not_in_signal cfg pd.2 pd.1
  · rw [tradePhase_hold cfg st pd.1 pd.2 ha] at he
    exact h e he
  · rw [tradePhase_hold cfg st pd.1 pd.2 ha] at he
    exact h e he

theorem foldl_trades_reason (cfg : StrategyConfig) :
    ∀ (lp : List (Option DataPoint × DataPoint)) (st : BState),
      (∀ e ∈ st.trades, ReasonAtom.endOfBacktestPeriod ∉ e.reason) →
      ∀ e ∈ (lp.foldl (stepB cfg) st).trades,
        ReasonAtom.endOfBacktestPeriod ∉ e.reason := by
  intro lp
  induction lp with
  | nil => intro st h; simpa using h
  | cons x xs ih =>
    intro st h
    simp only [List.foldl_cons]
    exact ih (stepB cfg st x) (stepB_trades_reason cfg st x h)

theorem backtest_finalCapital_eq (cfg : StrategyConfig) (l : List DataPoint)
    (init : ℚ) :
    (backtest cfg l init).finalCapital = (finishB l (runBody cfg l init)).capital := rfl

theorem backtest_tradeHistory_eq (cfg : StrategyConfig) (l : List DataPoint)
    (init : ℚ) :
    (backtest cfg l init).tradeHistory =
      (finishB l (runBody cfg l init)).tradeHistory := rfl

theorem backtest_trades_eq (cfg : StrategyConfig) (l : List DataPoint) (init : ℚ) :
    (backtest cfg l init).trades = (finishB l (runBody cfg l init)).trades := rfl

theorem backtest_dailyPortfolio_eq (cfg : StrategyConfig) (l : List DataPoint)
    (init : ℚ) :
    (backtest cfg l init).dailyPortfolio =
      (finishB l (runBody cfg l init)).dailyPortfolio := rfl

theorem finishB_dailyPortfolio (l : List DataPoint) (st : BState) :
    (finishB l st).dailyPortfolio = st.dailyPortfolio := by
  simp only [finishB]
  rcases st.position with _ | p <;> rcases l.getLast? with _ | last <;> rfl

theorem finishB_long (l : List DataPoint) (st : BState) (p : Position)
    (last : DataPoint) (hp : st.position = some p) (hl : l.getLast? = some last) :
    finishB l st =
      { st with
        capital := (closePosition p last).exitCapital,
        position := none,
        trades := st.trades ++ [.closed last.date last.price last.digitalRoot
          [.endOfBacktestPeriod] p.price p.date
          (closePosition p last).profit (closePosition p last).profitPercent
          (closePosition p last).exitCapital],
        tradeHistory := st.tradeHistory ++ [closePosition p last] } := by
  simp only [finishB]
  rw [hp, hl]

theorem finishB_flat (l : List DataPoint) (st : BState) (hp : st.position = none) :
    finishB l st = st := by
  simp only [finishB]
  rw [hp]

/-! ## Claim C2: the backtest state machine -/

/-- Claim C2.  The simulation is a state machine over `FLAT`/`LONG`
(`position = none` / `some p`): the initial state is `FLAT`; each record
performs one step, whose transition table is: `BUY` while flat opens a
position at the record's date and price, sized by the configured
allocation fraction, without touching capital; `BUY` while long is a
no-op; `SELL` while long closes the position with
`profit = (exit - entry) * size`, percentage relative to the entry price,
new capital `capital * exit / entry`, and appends the trade; `SELL` while
flat and `HOLD` are no-ops.  If a position is still open after the last
record it is force-closed at that record's price and date with the
`'End of backtest period'` reason, which no loop-recorded (signal-driven)
ledger entry ever carries. -/
theorem backtest_state_machine (cfg : StrategyConfig) (priceData : List DataPoint)
    (initialCapital : ℚ) :
    (stateAfter cfg priceData initialCapital 0).position = none ∧
    (∀ i p, (stateAfter cfg priceData initialCapital i).position = some p →
      p.capital = (stateAfter cfg priceData initialCapital i).capital) ∧
    (∀ i (h : i < priceData.length),
      stateAfter cfg priceData initialCapital (i + 1) =
        stepB cfg (stateAfter cfg priceData initialCapital i)
          (prevRecord priceData i, priceData.get ⟨i, h⟩)) ∧
    (∀ (st : BState) (prev : Option DataPoint) (d : DataPoint),
      ((generateSignal cfg d prev).action = .BUY → st.position = none →
        (stepB cfg st (prev, d)).position =
          some { date := d.date, price := d.price, digitalRoot := d.digitalRoot,
                 capital := st.capital, size := cfg.maxPositionSize } ∧
        (stepB cfg st (prev, d)).capital = st.capital ∧
        (stepB cfg st (prev, d)).tradeHistory = st.tradeHistory) ∧
      (∀ p, (generateSignal cfg d prev).action = .BUY → st.position = some p →
        (stepB cfg st (prev, d)).position = st.position ∧
        (stepB cfg st (prev, d)).capital = st.capital ∧
        (stepB cfg st (prev, d)).tradeHistory = st.tradeHistory) ∧
      (∀ p, (generateSignal cfg d prev).action = .SELL → st.position = some p →
        p.capital = st.capital →
        (stepB cfg st (prev, d)).position = none ∧
        (stepB cfg st (prev, d)).capital = st.capital * (d.price / p.price) ∧
        (stepB cfg st (prev, d)).tradeHistory =
          st.tradeHistory ++ [closePosition p d] ∧
        (closePosition p d).profit = (d.price - p.price) * p.size ∧
        (closePosition p d).profitPercent = (d.price - p.price) / p.price * 100 ∧
        (closePosition p d).exitCapital = st.capital * (d.price / p.price)) ∧
      ((generateSignal cfg d prev).action = .SELL → st.position = none →
        (stepB cfg st (prev, d)).position = none ∧
        (stepB cfg st (prev, d)).capital = st.capital ∧
        (stepB cfg st (prev, d)).tradeHistory = st.tradeHistory) ∧
      ((generateSignal cfg d prev).action = .HOLD →
        (stepB cfg st (prev, d)).position = st.position ∧
        (stepB cfg st (prev, d)).capital = st.capital ∧
        (stepB cfg st (prev, d)).tradeHistory = st.tradeHistory)) ∧
    (∀ p last, (runBody cfg priceData initialCapital).position = some p →
      priceData.getLast? = some last →
      (backtest cfg priceData initialCapital).finalCapital =
        (runBody cfg priceData initialCapital).capital * (last.price / p.price) ∧
      (backtest cfg priceData initialCapital).tradeHistory =
        (runBody cfg priceData initialCapital).tradeHistory ++ [closePosition p last] ∧
      (backtest cfg priceData initialCapital).trades =
        (runBody cfg priceData initialCapital).trades ++
          [LedgerEntry.closed last.date last.price last.digitalRoot
            [ReasonAtom.endOfBacktestPeriod] p.price p.date
            (closePosition p last).profit (closePosition p last).profitPercent
            (closePosition p last).exitCapital]) ∧
    ((runBody cfg priceData initialCapital).position = none →
      (backtest cfg priceData initialCapital).finalCapital =
        (runBody cfg priceData initialCapital).capital ∧
      (backtest cfg priceData initialCapital).tradeHistory =
        (runBody cfg priceData initialCapital).tradeHistory) ∧
    (∀ e ∈ (runBody cfg priceData initialCapital).trades,
      ReasonAtom.endOfBacktestPeriod ∉ e.reason) := by
  refine ⟨rfl, stateAfter_posCapInv cfg priceData initialCapital,
    stateAfter_succ cfg priceData initialCapital, ?_, ?_, ?_, ?_⟩
  · intro st prev d
    refine ⟨?_, ?_, ?_, ?_, ?_⟩
    · intro ha hp
      rw [stepB_position, stepB_capital, stepB_tradeHistory,
        tradePhase_buy_flat cfg st prev d ha hp]
      exact ⟨rfl, rfl, rfl⟩
    · intro p ha hp
      rw [stepB_position, stepB_capital, stepB_tradeHistory,
        tradePhase_buy_long cfg st prev d p ha hp]
      exact ⟨rfl, rfl, rfl⟩
    · intro p ha hp hcap
      rw [stepB_position, stepB_capital, stepB_tradeHistory,
        tradePhase_sell_long cfg st prev d p ha hp]
      refine ⟨rfl, ?_, rfl, rfl, rfl, ?_⟩
      · simp [closePosition, hcap]
      · simp [closePosition, hcap]
    · intro ha hp
      rw [stepB_position, stepB_capital, stepB_tradeHistory,
        tradePhase_sell_flat cfg st prev d ha hp]
      exact ⟨hp, rfl, rfl⟩
    · intro ha
      rw [stepB_position, stepB_capital, stepB_tradeHistory,
        tradePhase_hold cfg st prev d ha]
      exact ⟨rfl, rfl, rfl⟩
  · intro p last hpos hlast
    have hcap : p.capital = (runBody cfg priceData initialCapital).capital := by
      rw [runBody_eq] at hpos ⊢
      exact stateAfter_posCapInv cfg priceData initialCapital priceData.length p hpos
    rw [backtest_finalCapital_eq, backtest_tradeHistory_eq, backtest_trades_eq,
      finishB_long priceData (runBody cfg priceData initialCapital) p last hpos hlast]
    refine ⟨?_, rfl, rfl⟩
    simp [closePosition, hcap]
  · intro hpos
    rw [backtest_finalCapital_eq, backtest_tradeHistory_eq,
      finishB_flat priceData (runBody cfg priceData initialCapital) hpos]
    exact ⟨rfl, rfl⟩
  · rw [runBody]
    apply foldl_trades_reason
    intro e he
    simp [initState] at he

/-- Witness for C2: a `BUY` signal in the flat initial state opens the
position (plain-targets configuration, first record, digital root 1). -/
theorem backtest_state_machine_witness :
    (stepB plainTargetsConfig (initState 10000) (none, ⟨0, 1000, 1⟩)).position =
      some { date := 0, price := 1000, digitalRoot := 1,
             capital := (initState 10000).capital,
             size := plainTargetsConfig.maxPositionSize } ∧
    (stepB plainTargetsConfig (initState 10000) (none, ⟨0, 1000, 1⟩)).capital =
      (initState 10000).capital ∧
    (stepB plainTargetsConfig (initState 10000) (none, ⟨0, 1000, 1⟩)).tradeHistory =
      (initState 10000).tradeHistory :=
  ((backtest_state_machine plainTargetsConfig [⟨0, 1000, 1⟩] 10000).2.2.2.1
    (initState 10000) none ⟨0, 1000, 1⟩).1 rfl rfl

theorem ratioProd_append (th : List Trade) (t : Trade) :
    ratioProd (th ++ [t]) = ratioProd th * (t.exitPrice / t.entryPrice) := by
  simp [ratioProd]

theorem stepB_capital_ratio (cfg : StrategyConfig) (st : BState)
    (pd : Option DataPoint × DataPoint) (init : ℚ)
    (h1 : st.capital = init * ratioProd st.tradeHistory)
    (h2 : ∀ p, st.position = some p → p.capital = st.capital) :
    (stepB cfg st pd).capital = init * ratioProd (stepB cfg st pd).tradeHistory := by
  rw [stepB_capital, stepB_tradeHistory]
  rcases ha : (generateSignal cfg pd.2 pd.1).action with _ | _ | _ <;>
    rcases hpos : st.position with _ | q
  · rw [tradePhase_buy_flat cfg st pd.1 pd.2 ha hpos]
    exact h1
  · rw [tradePhase_buy_long cfg st pd.1 pd.2 q ha hpos]
    exact h1
  · rw [tradePhase_sell_flat cfg st pd.1 pd.2 ha hpos]
    exact h1
  · rw [tradePhase_sell_long cfg st pd.1 pd.2 q ha hpos]
    have hq := h2 q hpos
    simp only [closePosition, ratioProd_append, h1, hq]
    ring
  · rw [tradePhase_hold cfg st pd.1 pd.2 ha]
    exact h1
  · rw [tradePhase_hold cfg st pd.1 pd.2 ha]
    exact h1

theorem foldl_capital_ratio (cfg : StrategyConfig) (init : ℚ) :
    ∀ (lp : List (Option DataPoint × DataPoint)) (st : BState),
      st.capital = init * ratioProd st.tradeHistory →
      (∀ p, st.position = some p → p.capital = st.capital) →
      (lp.foldl (stepB cfg) st).capital =
        init * ratioProd ((lp.foldl (stepB cfg) st).tradeHistory) := by
  intro lp
  induction lp with
  | nil => intro st h1 h2; simpa using h1
  | cons x xs ih =>
    intro st h1 h2
    simp only [List.foldl_cons]
    exact ih (stepB cfg st x) (stepB_capital_ratio cfg st x init h1 h2)
      (stepB_posCapInv cfg st x h2)

theorem finishB_noLast (l : List DataPoint) (st : BState)
    (hl : l.getLast? = none) : finishB l st = st := by
  simp only [finishB]
  rw [hl]
  rcases st.position with _ | p <;> rfl

/-- Claim C4 counterexample.  Plain-targets configuration, records
`(price 1000, root 1)` then `(price 1200, root 5)`, initial capital 10000:
the single recorded trade has `profit = (1200 - 1000) * 1 = 200`, while
`finalCapital - initialCapital = 12000 - 10000 = 2000`; the recorded
profits do not sum to the capital change. -/
theorem backtest_profit_sum_counterexample :
    ((backtest plainTargetsConfig [⟨0, 1000, 1⟩, ⟨1, 1200, 5⟩] 10000).tradeHistory.map
      (fun t => t.profit)).sum = 200 ∧
    (backtest plainTargetsConfig [⟨0, 1000, 1⟩, ⟨1, 1200, 5⟩] 10000).finalCapital
      - 10000 = 2000 ∧
    ¬ (((backtest plainTargetsConfig [⟨0, 1000, 1⟩, ⟨1, 1200, 5⟩] 10000).tradeHistory.map
        (fun t => t.profit)).sum =
      (backtest plainTargetsConfig [⟨0, 1000, 1⟩, ⟨1, 1200, 5⟩] 10000).finalCapital
        - 10000) := by
  have h1 : ((backtest plainTargetsConfig [⟨0, 1000, 1⟩, ⟨1, 1200, 5⟩] 10000).tradeHistory.map
      (fun t => t.profit)).sum = 200 := by
    norm_num [backtest, finishB, runBody, pairedInputs, stepB, tradePhase, portfolioValueOf,
      generateSignal, openPosition, closePosition, initState, jsDiv,
      isInDoublingSequence, isTeslaNumber, generateVortexSequence, vortexLoop, vortexStep,
      defaultConfig, plainTargetsConfig]
  have h2 : (backtest plainTargetsConfig [⟨0, 1000, 1⟩, ⟨1, 1200, 5⟩] 10000).finalCapital
      - 10000 = 2000 := by
    norm_num [backtest, finishB, runBody, pairedInputs, stepB, tradePhase, portfolioValueOf,
      generateSignal, openPosition, closePosition, initState, jsDiv,
      isInDoublingSequence, isTeslaNumber, generateVortexSequence, vortexLoop, vortexStep,
      defaultConfig, plainTargetsConfig]
  refine ⟨h1, h2, ?_⟩
  rw [h1, h2]
  norm_num

/-- Claim C4 amended.  The reconciliation is multiplicative, not additive:
for every run, `finalCapital = initialCapital * ∏ (exitPrice / entryPrice)`
over the recorded trades — the forced end-of-series close covers any
still-open position, so the product ranges over the full trade history. -/
theorem backtest_capital_reconciliation (cfg : StrategyConfig)
    (priceData : List DataPoint) (initialCapital : ℚ) :
    (backtest cfg priceData initialCapital).finalCapital =
      initialCapital * ratioProd (backtest cfg priceData initialCapital).tradeHistory := by
  rw [backtest_finalCapital_eq, backtest_tradeHistory_eq]
  have h1 : (runBody cfg priceData initialCapital).capital =
      initialCapital * ratioProd (runBody cfg priceData initialCapital).tradeHistory := by
    rw [runBody]
    apply foldl_capital_ratio
    · simp [initState, ratioProd]
    · intro p hp
      simp [initState] at hp
  have h2 : ∀ p, (runBody cfg priceData initialCapital).position = some p →
      p.capital = (runBody cfg priceData initialCapital).capital := by
    rw [runBody_eq]
    exact stateAfter_posCapInv cfg priceData initialCapital priceData.length
  rcases hp : (runBody cfg priceData initialCapital).position with _ | p
  · rw [finishB_flat priceData _ hp]
    exact h1
  · rcases hl : priceData.getLast? with _ | last
    · rw [finishB_noLast priceData _ hl]
      exact h1
    · rw [finishB_long priceData _ p last hp hl]
      simp only [closePosition, ratioProd_append, h1, h2 p hp]
      ring

/-! ## Claim C7: the equity curve -/

theorem tradePhase_dailyPortfolio (cfg : StrategyConfig) (st : BState)
    (prev : Option DataPoint) (d : DataPoint) :
    (tradePhase cfg st prev d).dailyPortfolio = st.dailyPortfolio := by
  simp only [tradePhase]
  rcases (generateSignal cfg d prev).action <;> rcases st.position <;> rfl

theorem tradePhase_maxCapital (cfg : StrategyConfig) (st : BState)
    (prev : Option DataPoint) (d : DataPoint) :
    (tradePhase cfg st prev d).maxCapital = st.maxCapital := by
  simp only [tradePhase]
  rcases (generateSignal cfg d prev).action <;> rcases st.position <;> rfl

theorem stepB_dailyPortfolio (cfg : StrategyConfig) (st : BState)
    (pd : Option DataPoint × DataPoint) :
    (stepB cfg st pd).dailyPortfolio =
      st.dailyPortfolio ++ [pointOf (tradePhase cfg st pd.1 pd.2) pd.2] := by
  simp only [stepB, tradePhase_dailyPortfolio]

theorem stepB_maxCapital_eq (cfg : StrategyConfig) (st : BState)
    (pd : Option DataPoint × DataPoint) :
    (stepB cfg st pd).maxCapital =
      max st.maxCapital (portfolioValueOf (tradePhase cfg st pd.1 pd.2) pd.2) := by
  simp only [stepB, tradePhase_maxCapital]

theorem foldl_curve_length (cfg : StrategyConfig) :
    ∀ (lp : List (Option DataPoint × DataPoint)) (st : BState),
      ((lp.foldl (stepB cfg) st).dailyPortfolio).length =
        st.dailyPortfolio.length + lp.length := by
  intro lp
  induction lp with
  | nil => intro st; simp
  | cons x xs ih =>
    intro st
    simp only [List.foldl_cons, List.length_cons]
    rw [ih (stepB cfg st x), stepB_dailyPortfolio]
    simp
    omega

/-- The equity curve has exactly one entry per input record. -/
theorem backtest_curve_length (cfg : StrategyConfig) (l : List DataPoint) (init : ℚ) :
    ((backtest cfg l init).dailyPortfolio).length = l.length := by
  rw [backtest_dailyPortfolio_eq, finishB_dailyPortfolio, runBody, foldl_curve_length]
  simp [initState, pairedInputs_length]

theorem stateAfter_stable (cfg : StrategyConfig) (l : List DataPoint) (init : ℚ)
    (j : ℕ) (h : l.length ≤ j) :
    stateAfter cfg l init j = runBody cfg l init := by
  rw [stateAfter, runBody, List.take_of_length_le (by rw [pairedInputs_length]; exact h)]

theorem stateAfter_curve_extend (cfg : StrategyConfig) (l : List DataPoint)
    (init : ℚ) (i : ℕ) :
    ∀ j, i ≤ j → ∃ rest, (stateAfter cfg l init j).dailyPortfolio =
      (stateAfter cfg l init i).dailyPortfolio ++ rest := by
  intro j
  induction j with
  | zero => intro h; exact ⟨[], by rw [Nat.le_zero.mp h]; simp⟩
  | succ j ih =>
    intro h
    rcases Nat.eq_or_lt_of_le h with he | hlt
    · exact ⟨[], by rw [he]; simp⟩
    · have hij : i ≤ j := by omega
      obtain ⟨rest, hr⟩ := ih hij
      by_cases hj : j < l.length
      · rw [stateAfter_succ cfg l init j hj, stepB_dailyPortfolio, hr]
        exact ⟨rest ++ [pointOf (tradePhase cfg (stateAfter cfg l init j)
          (prevRecord l j) (l.get ⟨j, hj⟩)) (l.get ⟨j, hj⟩)], by simp⟩
      · rw [stateAfter_stable cfg l init (j + 1) (by omega),
          ← stateAfter_stable cfg l init j (by omega)]
        exact ⟨rest, hr⟩

theorem stateAfter_curve_length (cfg : StrategyConfig) (l : List DataPoint)
    (init : ℚ) (i : ℕ) :
    ((stateAfter cfg l init i).dailyPortfolio).length = min i l.length := by
  rw [stateAfter, foldl_curve_length]
  simp [initState, pairedInputs_length]

theorem stateAfter_curve_take (cfg : StrategyConfig) (l : List DataPoint)
    (init : ℚ) (i : ℕ) (h : i ≤ l.length) :
    (stateAfter cfg l init i).dailyPortfolio =
      ((runBody cfg l init).dailyPortfolio).take i := by
  obtain ⟨rest, hr⟩ := stateAfter_curve_extend cfg l init i l.length h
  have hfull : (runBody cfg l init).dailyPortfolio =
      (stateAfter cfg l init i).dailyPortfolio ++ rest := by
    rw [runBody_eq]
    exact hr
  have hlen : ((stateAfter cfg l init i).dailyPortfolio).length = i := by
    rw [stateAfter_curve_length]
    omega
  rw [hfull]
  exact (List.take_left' hlen).symm

theorem stateAfter_maxCapital (cfg : StrategyConfig) (l : List DataPoint)
    (init : ℚ) :
    ∀ i, (stateAfter cfg l init i).maxCapital =
      ((stateAfter cfg l init i).dailyPortfolio.map
        (fun q => q.portfolioValue)).foldl max init := by
  intro i
  induction i with
  | zero => simp [stateAfter_zero, initState]
  | succ i ih =>
    by_cases hi : i < l.length
    · rw [stateAfter_succ cfg l init i hi, stepB_maxCapital_eq, stepB_dailyPortfolio, ih]
      simp [pointOf, List.foldl_append]
    · rw [stateAfter_stable cfg l init (i + 1) (by omega),
        ← stateAfter_stable cfg l init i (by omega)]
      exact ih

theorem le_foldl_max : ∀ (l : List ℚ) (b : ℚ), b ≤ l.foldl max b := by
  intro l
  induction l with
  | nil => intro b; simp
  | cons x xs ih =>
    intro b
    simp only [List.foldl_cons]
    exact le_trans (le_max_left b x) (ih (max b x))

theorem runBody_curve_get? (cfg : StrategyConfig) (l : List DataPoint) (init : ℚ)
    (i : ℕ) (h : i < l.length) :
    ((runBody cfg l init).dailyPortfolio).get? i =
      some (pointOf (tradePhase cfg (stateAfter cfg l init i)
        (prevRecord l i) (l.get ⟨i, h⟩)) (l.get ⟨i, h⟩)) := by
  obtain ⟨rest, hr⟩ := stateAfter_curve_extend cfg l init (i + 1) l.length (by omega)
  have hfull : (runBody cfg l init).dailyPortfolio =
      (stateAfter cfg l init (i + 1)).dailyPortfolio ++ rest := by
    rw [runBody_eq]
    exact hr
  have hsucc : (stateAfter cfg l init (i + 1)).dailyPortfolio =
      (stateAfter cfg l init i).dailyPortfolio ++
        [pointOf (tradePhase cfg (stateAfter cfg l init i)
          (prevRecord l i) (l.get ⟨i, h⟩)) (l.get ⟨i, h⟩)] := by
    rw [stateAfter_succ cfg l init i h, stepB_dailyPortfolio]
  have hlen : ((stateAfter cfg l init i).dailyPortfolio).length = i := by
    rw [stateAfter_curve_length]
    omega
  rw [hfull, hsucc, List.append_assoc, List.get?_append_right (by omega),
    hlen, Nat.sub_self]
  rfl

theorem runningPeak_eq_maxCapital (cfg : StrategyConfig) (l : List DataPoint)
    (init : ℚ) (i : ℕ) (h : i < l.length) :
    runningPeak cfg l init i = (stateAfter cfg l init (i + 1)).maxCapital := by
  rw [runningPeak, backtest_dailyPortfolio_eq, finishB_dailyPortfolio,
    ← List.map_take, ← stateAfter_curve_take cfg l init (i + 1) (by omega),
    stateAfter_maxCapital]

theorem init_le_runningPeak (cfg : StrategyConfig) (l : List DataPoint)
    (init : ℚ) (i : ℕ) :
    init ≤ runningPeak cfg l init i :=
  le_foldl_max _ init

theorem runningPeak_mono (cfg : StrategyConfig) (l : List DataPoint)
    (init : ℚ) (i : ℕ) :
    runningPeak cfg l init i ≤ runningPeak cfg l init (i + 1) := by
  rw [runningPeak, runningPeak, List.take_succ (n := i + 1)]
  rcases hx : ((backtest cfg l init).dailyPortfolio.map
      (fun q => q.portfolioValue))[i + 1]? with _ | x
  · simp
  · simp only [Option.toList_some, List.foldl_append, List.foldl_cons, List.foldl_nil]
    exact le_max_left _ x

/-- Claim C7.  Every run appends exactly one equity point per input record,
in order: the curve has the same length as the input series; the `i`-th
point carries the `i`-th record's date and price, the loop capital and
position flag after that record's trade execution, portfolio value equal
to `capital` when flat and `capital * price / entryPrice` when long, and
drawdown `(runningPeak - portfolioValue) / runningPeak * 100` where
`runningPeak` is the running maximum of portfolio values seeded at the
initial capital — a maximum that never decreases and never drops below
the (positive) initial capital. -/
theorem backtest_equity_curve (cfg : StrategyConfig) (priceData : List DataPoint)
    (initialCapital : ℚ) (hinit : 0 < initialCapital) :
    ((backtest cfg priceData initialCapital).dailyPortfolio).length =
      priceData.length ∧
    (∀ i (h : i < priceData.length) pt,
      ((backtest cfg priceData initialCapital).dailyPortfolio).get? i = some pt →
      pt.date = (priceData.get ⟨i, h⟩).date ∧
      pt.price = (priceData.get ⟨i, h⟩).price ∧
      pt.capital = (stateAfter cfg priceData initialCapital (i + 1)).capital ∧
      pt.isLong = (stateAfter cfg priceData initialCapital (i + 1)).position.isSome ∧
      ((stateAfter cfg priceData initialCapital (i + 1)).position = none →
        pt.portfolioValue = pt.capital) ∧
      (∀ p, (stateAfter cfg priceData initialCapital (i + 1)).position = some p →
        pt.portfolioValue = pt.capital * ((priceData.get ⟨i, h⟩).price / p.price)) ∧
      pt.drawdown = some ((runningPeak cfg priceData initialCapital i
          - pt.portfolioValue) / runningPeak cfg priceData initialCapital i * 100)) ∧
    (∀ i, initialCapital ≤ runningPeak cfg priceData initialCapital i ∧
      runningPeak cfg priceData initialCapital i ≤
        runningPeak cfg priceData initialCapital (i + 1)) := by
  refine ⟨backtest_curve_length cfg priceData initialCapital, ?_, fun i =>
    ⟨init_le_runningPeak cfg priceData initialCapital i,
     runningPeak_mono cfg priceData initialCapital i⟩⟩
  intro i h pt hpt
  rw [backtest_dailyPortfolio_eq, finishB_dailyPortfolio,
    runBody_curve_get? cfg priceData initialCapital i h] at hpt
  have hstep := stateAfter_succ cfg priceData initialCapital i h
  have hcap : (stateAfter cfg priceData initialCapital (i + 1)).capital =
      (tradePhase cfg (stateAfter cfg priceData initialCapital i)
        (prevRecord priceData i) (priceData.get ⟨i, h⟩)).capital := by
    rw [hstep, stepB_capital]
  have hposn : (stateAfter cfg priceData initialCapital (i + 1)).position =
      (tradePhase cfg (stateAfter cfg priceData initialCapital i)
        (prevRecord priceData i) (priceData.get ⟨i, h⟩)).position := by
    rw [hstep, stepB_position]
  have hmax : (stateAfter cfg priceData initialCapital (i + 1)).maxCapital =
      max (tradePhase cfg (stateAfter cfg priceData initialCapital i)
          (prevRecord priceData i) (priceData.get ⟨i, h⟩)).maxCapital
        (portfolioValueOf (tradePhase cfg (stateAfter cfg priceData initialCapital i)
          (prevRecord priceData i) (priceData.get ⟨i, h⟩)) (priceData.get ⟨i, h⟩)) := by
    rw [hstep, stepB_maxCapital_eq, tradePhase_maxCapital]
  have hpk : runningPeak cfg priceData initialCapital i =
      (stateAfter cfg priceData initialCapital (i + 1)).maxCapital :=
    runningPeak_eq_maxCapital cfg priceData initialCapital i h
  have hpkpos : (0 : ℚ) < runningPeak cfg priceData initialCapital i :=
    lt_of_lt_of_le hinit (init_le_runningPeak cfg priceData initialCapital i)
  have hm2 : max (tradePhase cfg (stateAfter cfg priceData initialCapital i)
      (prevRecord priceData i) (priceData.get ⟨i, h⟩)).maxCapital
      (portfolioValueOf (tradePhase cfg (stateAfter cfg priceData initialCapital i)
        (prevRecord priceData i) (priceData.get ⟨i, h⟩)) (priceData.get ⟨i, h⟩)) =
      runningPeak cfg priceData initialCapital i := by
    rw [hpk, hmax]
  rw [Option.some_inj] at hpt
  subst hpt
  refine ⟨rfl, rfl, hcap.symm, ?_, ?_, ?_, ?_⟩
  · show (tradePhase cfg (stateAfter cfg priceData initialCapital i)
      (prevRecord priceData i) (priceData.get ⟨i, h⟩)).position.isSome =
      (stateAfter cfg priceData initialCapital (i + 1)).position.isSome
    rw [hposn]
  · intro hnone
    rw [hposn] at hnone
    show portfolioValueOf (tradePhase cfg (stateAfter cfg priceData initialCapital i)
      (prevRecord priceData i) (priceData.get ⟨i, h⟩)) (priceData.get ⟨i, h⟩) =
      (tradePhase cfg (stateAfter cfg priceData initialCapital i)
        (prevRecord priceData i) (priceData.get ⟨i, h⟩)).capital
    simp only [portfolioValueOf]
    rw [hnone]
  · intro p hsome
    rw [hposn] at hsome
    show portfolioValueOf (tradePhase cfg (stateAfter cfg priceData initialCapital i)
      (prevRecord priceData i) (priceData.get ⟨i, h⟩)) (priceData.get ⟨i, h⟩) =
      (tradePhase cfg (stateAfter cfg priceData initialCapital i)
        (prevRecord priceData i) (priceData.get ⟨i, h⟩)).capital *
        ((priceData.get ⟨i, h⟩).price / p.price)
    simp only [portfolioValueOf]
    rw [hsome]
  · show (jsDiv (max (tradePhase cfg (stateAfter cfg priceData initialCapital i)
        (prevRecord priceData i) (priceData.get ⟨i, h⟩)).maxCapital
        (portfolioValueOf (tradePhase cfg (stateAfter cfg priceData initialCapital i)
          (prevRecord priceData i) (priceData.get ⟨i, h⟩)) (priceData.get ⟨i, h⟩)) -
        portfolioValueOf (tradePhase cfg (stateAfter cfg priceData initialCapital i)
          (prevRecord priceData i) (priceData.get ⟨i, h⟩)) (priceData.get ⟨i, h⟩))
        (max (tradePhase cfg (stateAfter cfg priceData initialCapital i)
          (prevRecord priceData i) (priceData.get ⟨i, h⟩)).maxCapital
          (portfolioValueOf (tradePhase cfg (stateAfter cfg priceData initialCapital i)
            (prevRecord priceData i) (priceData.get ⟨i, h⟩))
            (priceData.get ⟨i, h⟩)))).map (· * 100) = _
    rw [hm2, jsDiv, if_neg (ne_of_gt hpkpos)]
    rfl

/-- Witness for C7: one-record run with positive initial capital. -/
theorem backtest_equity_curve_witness :
    (0 : ℚ) < 10000 ∧
    ((backtest plainTargetsConfig [⟨0, 1000, 1⟩] 10000).dailyPortfolio).length = 1 :=
  ⟨by norm_num,
   (backtest_equity_curve plainTargetsConfig [⟨0, 1000, 1⟩] 10000 (by norm_num)).1⟩

/-! ## Claim C8: division-by-zero guards -/

/-- Claim C8 counterexample.  With initial capital 0 (one HOLD record), the
running peak is 0 and the recorded drawdown is the unguarded
`(0 - 0) / 0 * 100`, i.e. `NaN` (modelled `none`) — not `0` as claimed:
the drawdown computation has no zero-peak guard. -/
theorem drawdown_guard_counterexample :
    (stateAfter defaultConfig [⟨0, 5, 9⟩] 0 1).maxCapital = 0 ∧
    ((backtest defaultConfig [⟨0, 5, 9⟩] 0).dailyPortfolio.map
      (fun q => q.drawdown)) = [none] ∧
    ((backtest defaultConfig [⟨0, 5, 9⟩] 0).dailyPortfolio.map
      (fun q => q.drawdown)) ≠ [some 0] := by
  refine ⟨by decide, by decide, by decide⟩

/-- Claim C8 amended.  The Sharpe ratio is guarded: it is 0 whenever the
daily-return standard deviation is 0.  The drawdown percentage is *not*
guarded: whenever the running peak is 0 the stored drawdown is the
non-finite `(peak - value) / 0` (modelled `none`), never 0; the case is
unreachable only because a positive initial capital keeps the running
peak positive, making every stored drawdown a finite number. -/
theorem division_guards :
    (∀ perf : Performance, Real.sqrt (perf.returnVariance : ℝ) = 0 →
      sharpeRatio perf = 0) ∧
    (∀ (cfg : StrategyConfig) (l : List DataPoint) (init : ℚ) (i : ℕ)
      (pt : PortfolioPoint), 0 < init →
      ((backtest cfg l init).dailyPortfolio).get? i = some pt →
      pt.drawdown.isSome = true) ∧
    (∀ (cfg : StrategyConfig) (l : List DataPoint) (init : ℚ) (i : ℕ)
      (h : i < l.length) (pt : PortfolioPoint),
      ((backtest cfg l init).dailyPortfolio).get? i = some pt →
      (stateAfter cfg l init (i + 1)).maxCapital = 0 →
      pt.drawdown = none) := by
  refine ⟨?_, ?_, ?_⟩
  · intro perf hstd
    unfold sharpeRatio
    rw [hstd]
    simp
  · intro cfg l init i pt hinit hpt
    have hlt : i < l.length := by
      obtain ⟨hlen, -⟩ := List.get?_eq_some.mp hpt
      rwa [backtest_curve_length] at hlen
    rw [backtest_dailyPortfolio_eq, finishB_dailyPortfolio,
      runBody_curve_get? cfg l init i hlt, Option.some_inj] at hpt
    subst hpt
    have hmax : (stateAfter cfg l init (i + 1)).maxCapital =
        max (tradePhase cfg (stateAfter cfg l init i)
            (prevRecord l i) (l.get ⟨i, hlt⟩)).maxCapital
          (portfolioValueOf (tradePhase cfg (stateAfter cfg l init i)
            (prevRecord l i) (l.get ⟨i, hlt⟩)) (l.get ⟨i, hlt⟩)) := by
      rw [stateAfter_succ cfg l init i hlt, stepB_maxCapital_eq, tradePhase_maxCapital]
    have hle : init ≤ (stateAfter cfg l init (i + 1)).maxCapital := by
      rw [stateAfter_maxCapital]
      exact le_foldl_max _ init
    have hne : max (tradePhase cfg (stateAfter cfg l init i)
        (prevRecord l i) (l.get ⟨i, hlt⟩)).maxCapital
        (portfolioValueOf (tradePhase cfg (stateAfter cfg l init i)
          (prevRecord l i) (l.get ⟨i, hlt⟩)) (l.get ⟨i, hlt⟩)) ≠ 0 := by
      rw [← hmax]
      exact ne_of_gt (lt_of_lt_of_le hinit hle)
    show ((jsDiv _ _).map (· * 100)).isSome = true
    rw [jsDiv, if_neg hne]
    rfl
  · intro cfg l init i h pt hpt hzero
    rw [backtest_dailyPortfolio_eq, finishB_dailyPortfolio,
      runBody_curve_get? cfg l init i h, Option.some_inj] at hpt
    subst hpt
    have hmax : (stateAfter cfg l init (i + 1)).maxCapital =
        max (tradePhase cfg (stateAfter cfg l init i)
            (prevRecord l i) (l.get ⟨i, h⟩)).maxCapital
          (portfolioValueOf (tradePhase cfg (stateAfter cfg l init i)
            (prevRecord l i) (l.get ⟨i, h⟩)) (l.get ⟨i, h⟩)) := by
      rw [stateAfter_succ cfg l init i h, stepB_maxCapital_eq, tradePhase_maxCapital]
    have hm0 : max (tradePhase cfg (stateAfter cfg l init i)
        (prevRecord l i) (l.get ⟨i, h⟩)).maxCapital
        (portfolioValueOf (tradePhase cfg (stateAfter cfg l init i)
          (prevRecord l i) (l.get ⟨i, h⟩)) (l.get ⟨i, h⟩)) = 0 := by
      rw [← hmax]
      exact hzero
    show ((jsDiv _ _).map (· * 100)) = none
    rw [jsDiv, if_pos hm0]
    rfl

/-- Witness for the C8 amended theorem: a metrics record with zero return
variance has Sharpe ratio 0. -/
theorem division_guards_witness :
    sharpeRatio ⟨none, 0, 0, 0, 0, 0, 0, 0⟩ = 0 :=
  division_guards.1 ⟨none, 0, 0, 0, 0, 0, 0, 0⟩ (by norm_num)

/-! ## Claim C5: enrichment and non-monotonic timestamps -/

theorem dailyOf_length (prices : List (ℤ × ℚ)) :
    (dailyOf prices).length = prices.length := by
  simp [dailyOf]

theorem validateData_valid (pd : ProcessedData) (h : ¬ pd.dailyData.length = 0) :
    (validateData pd).valid = true := by
  unfold validateData
  rw [if_neg h]

/-- Claim C5 counterexample.  A two-point series whose second timestamp
(500) precedes the first (1000) is enriched without any error: the claim
that enrichment fails with a `NonMonotonicTimestamp` error on such input
is false — no such error exists anywhere in the processor. -/
theorem processRawData_nonmonotonic_counterexample :
    (500 : ℤ) ≤ 1000 ∧
    (processRawData [((1000 : ℤ), (100 : ℚ)), ((500 : ℤ), (200 : ℚ))]).toOption.map
      (fun d0 => d0.dailyData.length) = some 2 ∧
    (processRawData [((1000 : ℤ), (100 : ℚ)), ((500 : ℤ), (200 : ℚ))]).toOption.map
      (fun d0 => (validateData d0).valid) = some true :=
  ⟨by norm_num, by decide, rfl⟩

/-- Claim C5 amended.  Enrichment never checks timestamp order: for every
typed input it succeeds and produces one enriched record per price point,
and validation reports the result valid whenever the series is nonempty
(timestamp order affects at most the warning list); the processor's error
type has no timestamp-related constructor at all. -/
theorem processRawData_total (prices : List (ℤ × ℚ)) :
    (processRawData prices).toOption.map (fun d0 => d0.dailyData.length) =
      some prices.length ∧
    (prices ≠ [] → (processRawData prices).toOption.map
      (fun d0 => (validateData d0).valid) = some true) ∧
    (∀ e : ProcessError, e = .invalidDataFormat) := by
  refine ⟨?_, ?_, ?_⟩
  · simp [processRawData, Except.toOption, dailyOf_length]
  · intro hne
    have hcond : ¬ ((dailyOf prices).length = 0) := by
      rw [dailyOf_length]
      intro h0
      exact hne (List.length_eq_zero.mp h0)
    show some (validateData
      { totalRecords := prices.length, dailyData := dailyOf prices,
        frequencies := rootFrequency (dailyOf prices) }).valid = some true
    exact congrArg some (validateData_valid _ hcond)
  · intro e
    cases e
    rfl

/-- Witness for the amended C5 at a one-point series. -/
theorem processRawData_total_witness :
    (processRawData [((0 : ℤ), (10 : ℚ))]).toOption.map
      (fun d0 => (validateData d0).valid) = some true :=
  (processRawData_total [((0 : ℤ), (10 : ℚ))]).2.1 (by simp)

theorem generateSignal_size_invariant (cfg : StrategyConfig) (s : ℚ)
    (d : DataPoint) (prev : Option DataPoint) :
    generateSignal { cfg with maxPositionSize := s } d prev =
      generateSignal cfg d prev := rfl

theorem posRel_isSome (s₁ s₂ : ℚ) (a b : Option Position)
    (h : PosRel s₁ s₂ a b) : a.isSome = b.isSome := by
  rcases a with _ | p <;> rcases b with _ | q
  · rfl
  · simp [PosRel] at h
  · simp [PosRel] at h
  · rfl

theorem portfolioValueOf_rel (s₁ s₂ : ℚ) (a b : BState) (d : DataPoint)
    (hc : a.capital = b.capital) (hpos : PosRel s₁ s₂ a.position b.position) :
    portfolioValueOf a d = portfolioValueOf b d := by
  simp only [portfolioValueOf]
  rcases ha : a.position with _ | p <;> rcases hb : b.position with _ | q
  · exact hc
  · rw [ha, hb] at hpos
    simp [PosRel] at hpos
  · rw [ha, hb] at hpos
    simp [PosRel] at hpos
  · rw [ha, hb] at hpos
    show a.capital * (d.price / p.price) = b.capital * (d.price / q.price)
    rw [hc, hpos.2.1]

theorem pointOf_rel (s₁ s₂ : ℚ) (a b : BState) (d : DataPoint)
    (hc : a.capital = b.capital) (hm : a.maxCapital = b.maxCapital)
    (hpos : PosRel s₁ s₂ a.position b.position) :
    pointOf a d = pointOf b d := by
  have hpv := portfolioValueOf_rel s₁ s₂ a b d hc hpos
  simp only [pointOf, hpv, hc, hm, posRel_isSome s₁ s₂ a.position b.position hpos]

theorem tradePhase_size_invariant (cfg : StrategyConfig) (s₁ s₂ : ℚ)
    (st₁ st₂ : BState) (prev : Option DataPoint) (d : DataPoint)
    (hrel : StRel s₁ s₂ st₁ st₂) :
    StRel s₁ s₂ (tradePhase { cfg with maxPositionSize := s₁ } st₁ prev d)
      (tradePhase { cfg with maxPositionSize := s₂ } st₂ prev d) := by
  obtain ⟨hc, hm, hd, hpos, hth⟩ := hrel
  rcases ha : (generateSignal cfg d prev).action with _ | _ | _ <;>
    rcases h₁ : st₁.position with _ | p <;> rcases h₂ : st₂.position with _ | q
  all_goals try (rw [h₁, h₂] at hpos; exact False.elim hpos)
  · -- BUY, both flat: open the two positions
    rw [tradePhase_buy_flat _ st₁ prev d
        (by rw [generateSignal_size_invariant, ha]) h₁,
      tradePhase_buy_flat _ st₂ prev d
        (by rw [generateSignal_size_invariant, ha]) h₂]
    refine ⟨hc, hm, hd, ?_, hth⟩
    simp [PosRel, openPosition, hc]
  · -- BUY, both long: no-op
    rw [tradePhase_buy_long _ st₁ prev d p
        (by rw [generateSignal_size_invariant, ha]) h₁,
      tradePhase_buy_long _ st₂ prev d q
        (by rw [generateSignal_size_invariant, ha]) h₂]
    exact ⟨hc, hm, hd, hpos, hth⟩
  · -- SELL, both flat: no-op
    rw [tradePhase_sell_flat _ st₁ prev d
        (by rw [generateSignal_size_invariant, ha]) h₁,
      tradePhase_sell_flat _ st₂ prev d
        (by rw [generateSignal_size_invariant, ha]) h₂]
    exact ⟨hc, hm, hd, hpos, hth⟩
  · -- SELL, both long: close the two positions
    rw [tradePhase_sell_long _ st₁ prev d p
        (by rw [generateSignal_size_invariant, ha]) h₁,
      tradePhase_sell_long _ st₂ prev d q
        (by rw [generateSignal_size_invariant, ha]) h₂]
    rw [h₁, h₂] at hpos
    obtain ⟨hpd, hpp, hpr, hpc, hps₁, hps₂⟩ := hpos
    refine ⟨?_, hm, hd, by trivial, ?_⟩
    · simp [closePosition, hpc, hpp]
    · refine List.rel_append hth (List.forall₂_cons.mpr ⟨?_, List.Forall₂.nil⟩)
      refine ⟨by simp [closePosition, hpd], by simp [closePosition], ?_, ?_, ?_, ?_, ?_, ?_, ?_, ?_⟩
      · simp [closePosition, hpp]
      · simp [closePosition]
      · simp [closePosition, hpr]
      · simp [closePosition]
      · simp [closePosition, hpp]
      · simp [closePosition, hpc, hpp]
      · simp [closePosition, hps₁]
      · simp [closePosition, hps₂]
  · -- HOLD, flat
    rw [tradePhase_hold _ st₁ prev d (by rw [generateSignal_size_invariant, ha]),
      tradePhase_hold _ st₂ prev d (by rw [generateSignal_size_invariant, ha])]
    exact ⟨hc, hm, hd, hpos, hth⟩
  · -- HOLD, long
    rw [tradePhase_hold _ st₁ prev d (by rw [generateSignal_size_invariant, ha]),
      tradePhase_hold _ st₂ prev d (by rw [generateSignal_size_invariant, ha])]
    exact ⟨hc, hm, hd, hpos, hth⟩

theorem stepB_size_invariant (cfg : StrategyConfig) (s₁ s₂ : ℚ)
    (st₁ st₂ : BState) (pd : Option DataPoint × DataPoint)
    (hrel : StRel s₁ s₂ st₁ st₂) :
    StRel s₁ s₂ (stepB { cfg with maxPositionSize := s₁ } st₁ pd)
      (stepB { cfg with maxPositionSize := s₂ } st₂ pd) := by
  have h1 := tradePhase_size_invariant cfg s₁ s₂ st₁ st₂ pd.1 pd.2 hrel
  obtain ⟨hc, hm, hd, hpos, hth⟩ := h1
  have hpv := portfolioValueOf_rel s₁ s₂ _ _ pd.2 hc hpos
  have hpt := pointOf_rel s₁ s₂ _ _ pd.2 hc hm hpos
  refine ⟨?_, ?_, ?_, ?_, ?_⟩
  · rw [stepB_capital, stepB_capital]
    exact hc
  · rw [stepB_maxCapital_eq, stepB_maxCapital_eq, hpv]
    obtain ⟨-, hm0, -, -, -⟩ := hrel
    rw [hm0]
  · rw [stepB_dailyPortfolio, stepB_dailyPortfolio, hpt]
    obtain ⟨-, -, hd0, -, -⟩ := hrel
    rw [hd0]
  · rw [stepB_position, stepB_position]
    exact hpos
  · rw [stepB_tradeHistory, stepB_tradeHistory]
    exact hth

theorem foldl_size_invariant (cfg : StrategyConfig) (s₁ s₂ : ℚ) :
    ∀ (lp : List (Option DataPoint × DataPoint)) (st₁ st₂ : BState),
      StRel s₁ s₂ st₁ st₂ →
      StRel s₁ s₂ (lp.foldl (stepB { cfg with maxPositionSize := s₁ }) st₁)
        (lp.foldl (stepB { cfg with maxPositionSize := s₂ }) st₂) := by
  intro lp
  induction lp with
  | nil => intro st₁ st₂ h; simpa using h
  | cons x xs ih =>
    intro st₁ st₂ h
    simp only [List.foldl_cons]
    exact ih _ _ (stepB_size_invariant cfg s₁ s₂ st₁ st₂ x h)

theorem finishB_size_invariant (cfg : StrategyConfig) (s₁ s₂ : ℚ)
    (l : List DataPoint) (st₁ st₂ : BState) (hrel : StRel s₁ s₂ st₁ st₂) :
    StRel s₁ s₂ (finishB l st₁) (finishB l st₂) := by
  obtain ⟨hc, hm, hd, hpos, hth⟩ := hrel
  rcases h₁ : st₁.position with _ | p <;> rcases h₂ : st₂.position with _ | q
  · rw [finishB_flat l st₁ h₁, finishB_flat l st₂ h₂]
    exact ⟨hc, hm, hd, hpos, hth⟩
  · rw [h₁, h₂] at hpos
    simp [PosRel] at hpos
  · rw [h₁, h₂] at hpos
    simp [PosRel] at hpos
  · rcases hl : l.getLast? with _ | last
    · rw [finishB_noLast l st₁ hl, finishB_noLast l st₂ hl]
      exact ⟨hc, hm, hd, hpos, hth⟩
    · rw [finishB_long l st₁ p last h₁ hl, finishB_long l st₂ q last h₂ hl]
      rw [h₁, h₂] at hpos
      obtain ⟨hpd, hpp, hpr, hpc, hps₁, hps₂⟩ := hpos
      refine ⟨?_, hm, hd, by trivial, ?_⟩
      · simp [closePosition, hpc, hpp]
      · refine List.rel_append hth (List.forall₂_cons.mpr ⟨?_, List.Forall₂.nil⟩)
        refine ⟨by simp [closePosition, hpd], by simp [closePosition], ?_, ?_, ?_, ?_, ?_, ?_, ?_, ?_⟩
        · simp [closePosition, hpp]
        · simp [closePosition]
        · simp [closePosition, hpr]
        · simp [closePosition]
        · simp [closePosition, hpp]
        · simp [closePosition, hpc, hpp]
        · simp [closePosition, hps₁]
        · simp [closePosition, hps₂]

theorem mul_neg_iff_right {x s : ℚ} (hs : 0 < s) : x * s < 0 ↔ x < 0 := by
  constructor
  · intro h
    by_contra hx
    push_neg at hx
    nlinarith
  · intro h
    exact mul_neg_of_neg_of_pos h hs

theorem forall₂_filter_lengths (s₁ s₂ : ℚ) (h₁ : 0 < s₁) (h₂ : 0 < s₂)
    (l₁ l₂ : List Trade) (hf : List.Forall₂ (TradeRel s₁ s₂) l₁ l₂) :
    (l₁.filter (fun t => 0 < t.profit)).length =
      (l₂.filter (fun t => 0 < t.profit)).length ∧
    (l₁.filter (fun t => t.profit < 0)).length =
      (l₂.filter (fun t => t.profit < 0)).length := by
  induction hf with
  | nil => simp
  | cons hr hrest ih =>
    obtain ⟨-, -, hep, hxp, -, -, -, -, hp₁, hp₂⟩ := hr
    rename_i t₁ t₂ r₁ r₂
    have hmove : t₁.exitPrice - t₁.entryPrice = t₂.exitPrice - t₂.entryPrice := by
      rw [hep, hxp]
    have hposIff : (0 < t₁.profit) = (0 < t₂.profit) := by
      rw [hp₁, hp₂, ← hmove, mul_pos_iff_of_pos_right h₁, mul_pos_iff_of_pos_right h₂]
    have hnegIff : (t₁.profit < 0) = (t₂.profit < 0) := by
      rw [hp₁, hp₂, ← hmove, propext (mul_neg_iff_right h₁), propext (mul_neg_iff_right h₂)]
    constructor
    · by_cases hq : 0 < t₁.profit
      · have hq2 : 0 < t₂.profit := hposIff ▸ hq
        simp [List.filter_cons, hq, hq2, ih.1]
      · have hq2 : ¬ 0 < t₂.profit := hposIff ▸ hq
        simp [List.filter_cons, hq, hq2, ih.1]
    · by_cases hq : t₁.profit < 0
      · have hq2 : t₂.profit < 0 := hnegIff ▸ hq
        simp [List.filter_cons, hq, hq2, ih.2]
      · have hq2 : ¬ t₂.profit < 0 := hnegIff ▸ hq
        simp [List.filter_cons, hq, hq2, ih.2]

theorem backtest_totalReturn_eq (cfg : StrategyConfig) (l : List DataPoint)
    (init : ℚ) :
    (backtest cfg l init).totalReturn =
      (jsDiv ((finishB l (runBody cfg l init)).capital - init) init).map (· * 100) := rfl

theorem backtest_performance_eq (cfg : StrategyConfig) (l : List DataPoint)
    (init : ℚ) :
    (backtest cfg l init).performance =
      calculatePerformanceMetrics (finishB l (runBody cfg l init)).tradeHistory
        (finishB l (runBody cfg l init)).dailyPortfolio init
        (finishB l (runBody cfg l init)).capital := rfl

theorem calculatePerformanceMetrics_rel (s₁ s₂ : ℚ) (h₁ : 0 < s₁) (h₂ : 0 < s₂)
    (th₁ th₂ : List Trade) (curve : List PortfolioPoint) (init cap : ℚ)
    (hth : List.Forall₂ (TradeRel s₁ s₂) th₁ th₂) :
    calculatePerformanceMetrics th₁ curve init cap =
      calculatePerformanceMetrics th₂ curve init cap := by
  have hlen := hth.length_eq
  have hfl := forall₂_filter_lengths s₁ s₂ h₁ h₂ th₁ th₂ hth
  simp only [calculatePerformanceMetrics]
  rw [hlen, hfl.1, hfl.2]

/-- Claim C9.  Two runs over the same series and configuration differing
only in the (positive) allocation fraction `maxPositionSize` produce the
same final capital, total return, equity curve, performance metrics
(win rate, drawdown, Sharpe ratio, ...); the fraction never enters the
capital update or portfolio-value computation, and scales only each
recorded trade's absolute `profit` field (`TradeRel`). -/
theorem backtest_size_invariance (cfg : StrategyConfig)
    (priceData : List DataPoint) (initialCapital : ℚ) (s₁ s₂ : ℚ)
    (h₁ : 0 < s₁) (h₂ : 0 < s₂) :
    (backtest { cfg with maxPositionSize := s₁ } priceData initialCapital).finalCapital =
      (backtest { cfg with maxPositionSize := s₂ } priceData initialCapital).finalCapital ∧
    (backtest { cfg with maxPositionSize := s₁ } priceData initialCapital).totalReturn =
      (backtest { cfg with maxPositionSize := s₂ } priceData initialCapital).totalReturn ∧
    (backtest { cfg with maxPositionSize := s₁ } priceData initialCapital).dailyPortfolio =
      (backtest { cfg with maxPositionSize := s₂ } priceData initialCapital).dailyPortfolio ∧
    (backtest { cfg with maxPositionSize := s₁ } priceData initialCapital).performance =
      (backtest { cfg with maxPositionSize := s₂ } priceData initialCapital).performance ∧
    sharpeRatio (backtest { cfg with maxPositionSize := s₁ }
        priceData initialCapital).performance =
      sharpeRatio (backtest { cfg with maxPositionSize := s₂ }
        priceData initialCapital).performance ∧
    List.Forall₂ (TradeRel s₁ s₂)
      (backtest { cfg with maxPositionSize := s₁ } priceData initialCapital).tradeHistory
      (backtest { cfg with maxPositionSize := s₂ } priceData initialCapital).tradeHistory := by
  have hinit : StRel s₁ s₂ (initState initialCapital) (initState initialCapital) :=
    ⟨rfl, rfl, rfl, trivial, List.Forall₂.nil⟩
  have hbody : StRel s₁ s₂
      (runBody { cfg with maxPositionSize := s₁ } priceData initialCapital)
      (runBody { cfg with maxPositionSize := s₂ } priceData initialCapital) :=
    foldl_size_invariant cfg s₁ s₂ (pairedInputs priceData) _ _ hinit
  have hfin := finishB_size_invariant cfg s₁ s₂ priceData _ _ hbody
  obtain ⟨hc, hm, hd, hpos, hth⟩ := hfin
  have hperf : (backtest { cfg with maxPositionSize := s₁ }
      priceData initialCapital).performance =
      (backtest { cfg with maxPositionSize := s₂ }
        priceData initialCapital).performance := by
    rw [backtest_performance_eq, backtest_performance_eq]
    have step1 := calculatePerformanceMetrics_rel s₁ s₂ h₁ h₂ _ _
      (finishB priceData (runBody { cfg with maxPositionSize := s₁ }
        priceData initialCapital)).dailyPortfolio initialCapital
      (finishB priceData (runBody { cfg with maxPositionSize := s₁ }
        priceData initialCapital)).capital hth
    rw [step1, hc, hd]
  refine ⟨hc, ?_, hd, hperf, congrArg sharpeRatio hperf, hth⟩
  rw [backtest_totalReturn_eq, backtest_totalReturn_eq, hc]

/-- Witness for C9: allocation fractions 1 and 1/2 over a two-record
buy-then-sell run give the same final capital. -/
theorem backtest_size_invariance_witness :
    (0 : ℚ) < 1 ∧ (0 : ℚ) < 1 / 2 ∧
    (backtest { defaultConfig with maxPositionSize := 1 }
        [⟨0, 1000, 1⟩, ⟨1, 1200, 5⟩] 10000).finalCapital =
      (backtest { defaultConfig with maxPositionSize := 1 / 2 }
        [⟨0, 1000, 1⟩, ⟨1, 1200, 5⟩] 10000).finalCapital :=
  ⟨by norm_num, by norm_num,
   (backtest_size_invariance defaultConfig [⟨0, 1000, 1⟩, ⟨1, 1200, 5⟩] 10000
     1 (1 / 2) (by norm_num) (by norm_num)).1⟩

end VortexTrading
